import Mathlib

/-!
Verification of the smartsensors library (sensors.py, digitalSensors.py,
sensorPool.py) against its specification.

The Python classes are embedded shallowly:

* numeric samples are modelled as rationals (`ℚ`); Python's true division is
  rational division and Python's floor division `//` is `pyFloorDiv`;
* Python `None` is `Option.none`; the truthiness tests `if x:` that the code
  performs on numbers, on `None` and on objects are modelled by the `pyTruthy*`
  functions (`None` and `0` are falsy, every other number is truthy, every
  object is truthy);
* a Python runtime error (TypeError from arithmetic on `None`, `min()` of a
  single value, IndexError, ZeroDivisionError, calling a method of `None`)
  makes the embedded operation return `none` in an outer `Option`;
* user-supplied callbacks, check conditions and normalization functions are
  external collaborators: they are identified by opaque labels (`Nat`) stored
  in the sensor, their behaviour is an oracle in `Env`, and their invocations
  are recorded as events (`Ev`);
* hardware reads (`analogRead`/`digitalRead`) are the oracle `Env.readFunc`.
-/

/-! ## Python-semantics helpers -/

/-- Python truthiness of an optional number: `None` and `0` are falsy. -/
def pyTruthyQ : Option ℚ → Bool
  | none => false
  | some q => decide (q ≠ 0)

/-- Python truthiness of an optional nonnegative integer: `None` and `0` are falsy. -/
def pyTruthyN : Option Nat → Bool
  | none => false
  | some n => decide (n ≠ 0)

/-- Python's `%` on integers (the result has the sign of the divisor;
for a positive divisor it lies in `[0, b)`). -/
def pymod (a b : Int) : Int :=
  (a % b + b) % b

/-- Python's floor division `//` (on ints it is exact floor; on our rational
model of floats it is the floor as well). -/
def pyFloorDiv (a b : ℚ) : ℚ :=
  ((a / b).floor : ℚ)

/-- Iterating over a Python list that may contain `None`: the first `None`
encountered by an arithmetic fold raises, which we model as `none`. -/
def allSome : List (Option ℚ) → Option (List ℚ)
  | [] => some []
  | none :: _ => none
  | some x :: rest => (allSome rest).map (x :: ·)

/-- Python `sum(buffer)`: raises (`none`) if any entry is `None`. -/
def pySum (l : List (Option ℚ)) : Option ℚ :=
  (allSome l).map List.sum

/-- Minimum of a nonempty list of rationals (the full-rescan oracle). -/
def naiveMin : List ℚ → Option ℚ
  | [] => none
  | x :: xs => some (xs.foldl min x)

/-- Maximum of a nonempty list of rationals (the full-rescan oracle). -/
def naiveMax : List ℚ → Option ℚ
  | [] => none
  | x :: xs => some (xs.foldl max x)

/-- Python `min(*buffer)`: raises (`none`) if any entry is `None` or if the
buffer has fewer than two elements (a single int is not iterable). -/
def pyMinQ (l : List (Option ℚ)) : Option ℚ :=
  match allSome l with
  | none => none
  | some vs => if 2 ≤ vs.length then naiveMin vs else none

/-- Python `max(*buffer)`, same error conditions as `pyMinQ`. -/
def pyMaxQ (l : List (Option ℚ)) : Option ℚ :=
  match allSome l with
  | none => none
  | some vs => if 2 ≤ vs.length then naiveMax vs else none

/-! ## The Sensor data model (sensors.py, class Sensor) -/

/-- The two acquisition kinds recognised by `_getValue` (the code compares the
`get_type` string against `"norm"` and otherwise treats it as raw). -/
inductive GetKind where
  | raw
  | norm
deriving DecidableEq, Repr

/-- The field selector of a derived sensor: `_getValue` recognises exactly the
strings `"currentAverage"` and `"currentDerivative"` (the spec's data model
restricts field selectors to these two). -/
inductive PField where
  | currentAverage
  | currentDerivative
deriving DecidableEq, Repr

/-- The `pin` attribute: either a hardware pin id, or a `(sensor, field)`
tuple.  A derived pin carries the source sensor's two readable computed fields
as resolved at read time (the reference is read-only, so only the current
values of those fields matter to an acquisition). -/
inductive Pin where
  | direct (id : Nat)
  | derived (srcAvg srcDeriv : Option ℚ) (field : PField)
deriving DecidableEq, Repr

/-- `MILLIS` / `MICROS` time units of `startSampling`. -/
inductive TimeUnit where
  | millis
  | micros
deriving DecidableEq, Repr

/-- What a Python method call evaluates to: `self` (fluent chaining) or the
implicit `None` of a method without a `return` statement. -/
inductive PyRet where
  | selfRef
  | noneRet
deriving DecidableEq, Repr

/-- What `_getValue` returns: a number, Python `False` (the sentinel produced
when a normalized read has no normalization function), or Python `None`. -/
inductive PyVal where
  | num (q : ℚ)
  | pyFalse
  | pyNone
deriving DecidableEq, Repr

/-- An observable invocation of external user code. -/
inductive Ev where
  | sampleAction (label : Nat)
  | checkAction (label : Nat)
deriving DecidableEq, Repr

/-- Oracles for the external collaborators consumed by a sensor: the hardware
read function and the user-supplied normalization functions and check
conditions (identified by their labels). -/
structure Env where
  readFunc : Nat → ℚ
  normSem : Nat → ℚ → ℚ
  condSem : Nat → Bool

/-- State of a `Sensor` object.  Fields follow `Sensor.__init__` and
`_resetSamplingParams`; aggregate attributes that Python creates lazily are
modelled as `Option ℚ` initialised to `none` (every constructible sensor,
`AnalogSensor` or `DigitalSensor`, calls `_resetSamplingParams` in its
`__init__`, which creates the attributes its store flags enable).
`_sampleBuffer` starts as `None` in Python and is replaced wholesale by the
first `_evalParams` call; we initialise it to the replaced value directly,
which is observationally identical because no code path reads the buffer while
`_currentBufferIndex == -1`. -/
structure Sensor where
  pin : Pin
  sampleBuffer : List (Option ℚ)
  storeMinMax : Bool
  storeAverage : Bool
  storeTrend : Bool
  skipEval : Bool
  currentSample : Option ℚ
  observationWindowN : Option Nat
  observationWindowT : Option ℚ
  samplingGetType : Option GetKind
  everySampleActions : List Nat
  checkFunctions : List Nat
  checkConditions : List Nat
  highPrecision : Bool
  normFunc : Option Nat
  samplingTimer : Option Bool
  microThread : Bool
  currentBufferIndex : Int
  currentAverage : Option ℚ
  currentTrend : Option ℚ
  currentDerivative : Option ℚ
  minSample : Option ℚ
  maxSample : Option ℚ
  samplingTime : Option ℚ
deriving DecidableEq, Repr

namespace Sensor

/-- `Sensor._resetSamplingParams`. -/
def resetSamplingParams (s : Sensor) : Sensor :=
  let s := { s with currentBufferIndex := -1 }
  let s := if s.storeAverage then { s with currentAverage := none } else s
  let s := if s.storeTrend then { s with currentTrend := none } else s
  let s := { s with currentDerivative := none }
  let s := if s.storeMinMax then { s with minSample := none, maxSample := none } else s
  { s with samplingTime := none }

/-- `Sensor.currentSample()` (the method; the record field `currentSample` is
the private attribute `_currentSample`). -/
def currentSampleFn (s : Sensor) : Option ℚ :=
  if s.skipEval then s.currentSample
  else if s.currentBufferIndex ≠ -1 then
    s.sampleBuffer.getD s.currentBufferIndex.toNat none
  else none

/-- `Sensor._evalParams(val)`: window-parameter evaluation.  Returns `none`
when the Python code would raise (window length `None` or `0`, arithmetic on
`None`, `min`/`max`/`sum` over a buffer still containing `None`, missing
`_observationWindowT`, comparison of a number with `None`). -/
def evalParams (v : ℚ) (s : Sensor) : Option Sensor :=
  match s.observationWindowN with
  | none => none
  | some n =>
    if n = 0 then none
    else
      let buf0 := if s.currentBufferIndex = -1 then List.replicate n (none : Option ℚ)
                  else s.sampleBuffer
      let idx : Int := pymod (s.currentBufferIndex + 1) n
      let j : Nat := idx.toNat
      let s1 : Sensor := { s with sampleBuffer := buf0, currentBufferIndex := idx }
      let rm := currentSampleFn s1
      let buf1 := buf0.set j (some v)
      let s2 : Sensor := { s1 with sampleBuffer := buf1 }
      let avgRes : Option (Option ℚ) :=
        if s2.storeAverage then
          if pyTruthyQ s2.currentAverage then
            match s2.currentAverage, rm with
            | some a, some r =>
              some (some (if s2.highPrecision then (a * n + v - r) / n
                          else pyFloorDiv (a * n + v - r) n))
            | _, _ => none
          else
            if idx = (n : Int) - 1 then
              match pySum buf1 with
              | some sm => some (some (if s2.highPrecision then sm / n else pyFloorDiv sm n))
              | none => none
            else some s2.currentAverage
        else some s2.currentAverage
      let oldest : Option ℚ := buf1.getD (pymod (idx + 1) n).toNat none
      let dtRes : Option (Option ℚ × Option ℚ) :=
        if pyTruthyQ s2.samplingTime then
          match s2.samplingTime with
          | none => none
          | some st =>
            let prev : Option ℚ := buf1.getD (pymod (idx - 1) n).toNat none
            let dRes : Option (Option ℚ) :=
              match prev with
              | some p => some (some (if s2.highPrecision then (v - p) / (st / 1000)
                                      else pyFloorDiv (v - p) (st / 1000)))
              | none => some s2.currentDerivative
            let tRes : Option (Option ℚ) :=
              if s2.storeTrend then
                match oldest with
                | some ov =>
                  match s2.observationWindowT with
                  | some wt =>
                    if wt = 0 then none
                    else some (some (if s2.highPrecision then (v - ov) / (wt / 1000)
                                     else pyFloorDiv (v - ov) (wt / 1000)))
                  | none => none
                | none => some s2.currentTrend
              else some s2.currentTrend
            match dRes, tRes with
            | some d, some t => some (d, t)
            | _, _ => none
        else some (s2.currentDerivative, s2.currentTrend)
      let mmRes : Option (Option ℚ × Option ℚ) :=
        if s2.storeMinMax then
          match oldest with
          | none => some (s2.minSample, s2.maxSample)
          | some _ =>
            if s2.minSample = none then
              match pyMinQ buf1, pyMaxQ buf1 with
              | some mn, some mx => some (some mn, some mx)
              | _, _ => none
            else
              match s2.minSample, s2.maxSample with
              | some m, some M =>
                let minRes : Option (Option ℚ) :=
                  if rm = some m then
                    if v > m then (pyMinQ buf1).map some else some (some v)
                  else
                    if v < m then some (some v) else some (some m)
                let maxRes : Option (Option ℚ) :=
                  if rm = some M then
                    if v < M then (pyMaxQ buf1).map some else some (some v)
                  else
                    if v > M then some (some v) else some (some M)
                match minRes, maxRes with
                | some mn, some mx => some (mn, mx)
                | _, _ => none
              | _, _ => none
        else some (s2.minSample, s2.maxSample)
      match avgRes, dtRes, mmRes with
      | some avg, some dt, some mm =>
        some { s2 with currentAverage := avg,
                       currentDerivative := dt.1, currentTrend := dt.2,
                       minSample := mm.1, maxSample := mm.2 }
      | _, _, _ => none

/-- A sequence of `_evalParams` calls (one per pushed sample, left to right). -/
def pushSeq : List ℚ → Sensor → Option Sensor
  | [], s => some s
  | v :: vs, s =>
    match evalParams v s with
    | none => none
    | some s' => pushSeq vs s'

end Sensor

namespace Sensor

/-- `Sensor._checkCurrentObj()`: iterate over the check pairs in registration
order; evaluate each condition (via the oracle) and record the paired action
when the condition holds.  A missing condition (lists out of sync) raises. -/
def checkCurrentObj (env : Env) (s : Sensor) : Option (List Ev) :=
  (List.range s.checkFunctions.length).foldlM
    (fun acc i =>
      match s.checkConditions.get? i, s.checkFunctions.get? i with
      | some c, some f =>
        some (acc ++ if env.condSem c then [Ev.checkAction f] else [])
      | _, _ => none)
    []

/-- `Sensor._getValue(get_type)`: the main acquisition method.  Returns the
updated sensor, the external invocations performed, and the Python return
value; `none` models an uncaught runtime error. -/
def getValue (env : Env) (gt : GetKind) (s : Sensor) : Option (Sensor × List Ev × PyVal) :=
  let val : Option ℚ :=
    match s.pin with
    | Pin.direct id => some (env.readFunc id)
    | Pin.derived srcAvg srcDeriv f =>
      match f with
      | PField.currentAverage => srcAvg
      | PField.currentDerivative => srcDeriv
  match val with
  | none => some (s, [], PyVal.pyNone)
  | some v0 =>
    if gt = GetKind.norm ∧ s.normFunc = none then some (s, [], PyVal.pyFalse)
    else
      let v : ℚ :=
        if gt = GetKind.norm then
          match s.normFunc with
          | some f => env.normSem f v0
          | none => v0
        else v0
      let s1res : Option Sensor :=
        if s.skipEval then some { s with currentSample := some v }
        else if pyTruthyN s.observationWindowN then evalParams v s
        else some s
      match s1res with
      | none => none
      | some s1 =>
        let evs1 := s1.everySampleActions.map Ev.sampleAction
        let evs2res : Option (List Ev) :=
          if s1.checkConditions.length ≠ 0 then checkCurrentObj env s1 else some []
        match evs2res with
        | none => none
        | some evs2 => some (s1, evs1 ++ evs2, PyVal.num v)

/-- `Sensor.getRaw()`. -/
def getRaw (env : Env) (s : Sensor) : Option (Sensor × List Ev × PyVal) :=
  getValue env GetKind.raw s

/-- `Sensor.getNormalized()`. -/
def getNormalized (env : Env) (s : Sensor) : Option (Sensor × List Ev × PyVal) :=
  getValue env GetKind.norm s

/-- `Sensor.setObservationWindow(n)`. -/
def setObservationWindow (n : Nat) (s : Sensor) : Sensor :=
  let s := { s with observationWindowN := some n }
  match s.samplingTime with
  | some t => if t ≠ 0 then { s with observationWindowT := some ((n : ℚ) * t) } else s
  | none => s

/-- `Sensor.setSamplingTime(time)`. -/
def setSamplingTime (t : ℚ) (s : Sensor) : Sensor :=
  { s with samplingTime := some t }

/-- `Sensor.doEverySample(to_do)`: appends and returns `self`. -/
def doEverySample (toDo : Nat) (s : Sensor) : Sensor × PyRet :=
  ({ s with everySampleActions := s.everySampleActions ++ [toDo] }, PyRet.selfRef)

/-- `Sensor.resetSampleActions()`: clears the list; the method body has no
`return` statement, so the call evaluates to Python `None`. -/
def resetSampleActions (s : Sensor) : Sensor × PyRet :=
  ({ s with everySampleActions := [] }, PyRet.noneRet)

/-- `Sensor.addCheck(condition, to_do)`: appends both and returns `self`. -/
def addCheck (condition toDo : Nat) (s : Sensor) : Sensor × PyRet :=
  ({ s with checkConditions := s.checkConditions ++ [condition],
            checkFunctions := s.checkFunctions ++ [toDo] }, PyRet.selfRef)

/-- `Sensor.resetCheck()`: clears both lists; no `return` statement, so the
call evaluates to Python `None`. -/
def resetCheck (s : Sensor) : Sensor × PyRet :=
  ({ s with checkFunctions := [], checkConditions := [] }, PyRet.noneRet)

/-- `Sensor.setNormFunc(fn)`: sets the function and returns `self`. -/
def setNormFunc (fn : Nat) (s : Sensor) : Sensor × PyRet :=
  ({ s with normFunc := some fn }, PyRet.selfRef)

/-- `Sensor.startSampling(time, observation_window, get_type, time_unit)`.
The millisecond branch arms the owned interval timer; the microsecond branch
spawns the `_microSample` loop thread.  Returns `self`. -/
def startSampling (time : ℚ) (window : Option Nat) (gt : GetKind) (unit : TimeUnit)
    (s : Sensor) : Sensor × PyRet :=
  let s := { s with samplingTime := some time, samplingGetType := some gt }
  let s :=
    match window with
    | some w => { s with observationWindowN := some w,
                         observationWindowT := some ((w : ℚ) * time) }
    | none => { s with skipEval := true }
  let s :=
    match unit with
    | TimeUnit.millis => { s with samplingTimer := some true }
    | TimeUnit.micros => { s with microThread := true }
  (s, PyRet.selfRef)

/-- `Sensor.stopSampling()`: clears the timer if one exists (object truthiness)
and resets the sampling parameters; resetting `_samplingTime` to `None` is
also the exit signal of the microsecond loop.  Returns `self`. -/
def stopSampling (s : Sensor) : Sensor × PyRet :=
  let s := if s.samplingTimer.isSome then { s with samplingTimer := some false } else s
  (resetSamplingParams s, PyRet.selfRef)

/-- `Sensor.wait(time)`: sleeps (external) and returns `self`. -/
def wait (s : Sensor) : Sensor × PyRet :=
  (s, PyRet.selfRef)

end Sensor

/-! ## The SensorPool data model (sensorPool.py, class SensorPool) -/

/-- State of a `SensorPool` object.  The member sensors themselves are
external to the pool's scheduling algorithm; an acquisition is recorded as the
pair (sensor index, acquisition kind).  `samplingTimer` is the single owned
timer: `none` before `startSampling` ever ran, `some armed` afterwards. -/
structure Pool where
  samplingTimes : List Nat
  diffTimes : List Nat
  getTypes : List GetKind
  readIndexes : List Nat
  sensorsN : Nat
  samplingTimer : Option Bool
  stopFlag : Bool
deriving DecidableEq, Repr

namespace Pool

/-- Python `min(*self._diffTimes)`: raises (`none`) with fewer than two
entries. -/
def pyMinNat (l : List Nat) : Option Nat :=
  match l with
  | [] => none
  | x :: rest => if 2 ≤ l.length then some (rest.foldl min x) else none

/-- The acquisition loop at the top of `SensorPool._sample`: for each index in
`_readIndexes`, dispatch on `_getTypes[i]` and acquire the sensor (recorded as
an event).  An out-of-range index raises. -/
def acqLoop (gts : List GetKind) : List Nat → Option (List (Nat × GetKind))
  | [] => some []
  | i :: rest =>
    match gts.get? i with
    | none => none
    | some gt => (acqLoop gts rest).map ((i, gt) :: ·)

/-- The `for i in range(0, self._sensorsN)` loop of `SensorPool._sample`:
returns the new `_readIndexes` and the new `_diffTimes` (entries `i, i+1, ...`
for `rem` iterations).  Out-of-range list accesses raise. -/
def sampleLoop (diff times : List Nat) (m : Nat) : Nat → Nat → Option (List Nat × List Nat)
  | _, 0 => some ([], [])
  | i, rem + 1 =>
    match diff.get? i with
    | none => none
    | some d =>
      if d = m then
        match times.get? i with
        | none => none
        | some pt => (sampleLoop diff times m (i + 1) rem).map (fun p => (i :: p.1, pt :: p.2))
      else
        (sampleLoop diff times m (i + 1) rem).map (fun p => (p.1, (d - m) :: p.2))

/-- `SensorPool._sample()`: one tick of the remaining-time multiplexing loop.
Returns the new pool state, the acquisitions performed, and `some m` when the
shared timer was re-armed with delay `m` (`none` when the stop flag suppressed
re-arming).  Re-arming a timer that was never created raises. -/
def sample (p : Pool) : Option (Pool × List (Nat × GetKind) × Option Nat) :=
  match acqLoop p.getTypes p.readIndexes with
  | none => none
  | some acqs =>
    match pyMinNat p.diffTimes with
    | none => none
    | some m =>
      match sampleLoop p.diffTimes p.samplingTimes m 0 p.sensorsN with
      | none => none
      | some rd =>
        let p' := { p with readIndexes := rd.1, diffTimes := rd.2 }
        if !p.stopFlag then
          match p.samplingTimer with
          | none => none
          | some _ => some ({ p' with samplingTimer := some true }, acqs, some m)
        else
          some ({ p' with stopFlag := false }, acqs, none)

/-- `SensorPool.__init__(sensors)` (scheduling state only; the sensor list
itself is external, only its length matters to the scheduler). -/
def init (sensorsN : Nat) : Pool :=
  { samplingTimes := [], diffTimes := [], getTypes := [], readIndexes := [],
    sensorsN := sensorsN, samplingTimer := none, stopFlag := false }

/-- `SensorPool.startSampling(sampling_times, observation_windows, get_types)`
restricted to the pool's own scheduling state: it clears the stop flag,
creates the shared timer, copies the period list into `_diffTimes` and fires
the first tick synchronously.  (The per-member sensor configuration it also
performs — `setSamplingTime`, `setObservationWindow`, `skipEval` — acts on the
Sensor model, not on the pool.) -/
def startSampling (ts : List Nat) (gts : List GetKind) (p : Pool) :
    Option (Pool × List (Nat × GetKind) × Option Nat) :=
  let p := { p with stopFlag := false, samplingTimer := some false,
                    samplingTimes := ts, diffTimes := ts, getTypes := gts }
  sample p

/-- `SensorPool.stopSampling()`: clears the shared timer and raises the stop
flag.  Clearing a timer that was never created raises. -/
def stopSampling (p : Pool) : Option Pool :=
  match p.samplingTimer with
  | none => none
  | some _ => some { p with samplingTimer := some false, stopFlag := true }

/-- The tick/re-arm cycle: runs `_sample` ticks, stamping each with the time
at which the shared one-shot timer fires it, until the stop flag suppresses
re-arming or the fuel (observation horizon) runs out.  Returns the list of
(tick time, acquisitions at that tick). -/
def ticks : Nat → Nat → Pool → Option (List (Nat × List (Nat × GetKind)))
  | 0, _, _ => some []
  | fuel + 1, t, p =>
    match sample p with
    | none => none
    | some (_, acqs, none) => some [(t, acqs)]
    | some (p', acqs, some m) =>
      match ticks fuel (t + m) p' with
      | none => none
      | some rest => some ((t, acqs) :: rest)

/-- The times at which a given sensor index is acquired during a run. -/
def acqTimesOf (run : List (Nat × List (Nat × GetKind))) (i : Nat) : List Nat :=
  run.filterMap (fun te => if te.2.any (fun a => a.1 = i) then some te.1 else none)

end Pool

/-! ## The DigitalSensor edge-sequence machine (digitalSensors.py) -/

/-- The callback a timer-`one_shot` of `_startTimerMax` is armed with. -/
inductive TMaxCb where
  | mark
  | reset
deriving DecidableEq, Repr

/-- The `_timerMax` attribute: `None`, the integer `1` written by
`_markTimerMax` (recognised by `type(self._timerMax) == 0`, the Zerynth
small-int type code), or a pending one-shot timer with its absolute deadline
and callback. -/
inductive TMax where
  | pynone
  | marked
  | pending (deadline : Nat) (cb : TMaxCb)
deriving DecidableEq, Repr

/-- The callbacks that `onPinRise`/`onPinFall` registration slots can hold. -/
inductive EdgeCb where
  | startTimerMin
  | checkTiming
deriving DecidableEq, Repr

/-- An external invocation performed by the sequence machine: one of the
`to_dos` step functions, or the `long_fn` overflow function. -/
inductive Em where
  | seqAction (step : Nat)
  | longFn
deriving DecidableEq, Repr

/-- State of the `DigitalSensor` sequence machine: the `onSequence`
configuration, the two timer attributes (`_timerMin` holds the absolute
deadline of its pending one-shot, whose callback is always `_startTimerMax`),
and the two edge-notifier registration slots for the sensor's pin
(re-registering replaces the previous callback).  Step functions and the
overflow function are external; only their Python truthiness is state. -/
structure Dig where
  sequenceStep : Nat
  sequenceLength : Nat
  sequenceTimes : List (Nat × Nat)
  seqFnsTruthy : List Bool
  hasLongFn : Bool
  sequenceStart : Nat
  timerMin : Option Nat
  timerMax : TMax
  riseHandler : Option EdgeCb
  fallHandler : Option EdgeCb
deriving DecidableEq, Repr

namespace Dig

/-- `DigitalSensor._sequenceReset()`: back to step 0, both timers `None`, and
`_onPinEdges[self._sequenceStart]` re-registers `_startTimerMin`
(`_sequenceStart` is a pin level, `0` registers on rise, `1` on fall). -/
def seqReset (s : Dig) : Dig :=
  let s := { s with sequenceStep := 0, timerMax := TMax.pynone, timerMin := none }
  if s.sequenceStart = 0 then { s with riseHandler := some EdgeCb.startTimerMin }
  else { s with fallHandler := some EdgeCb.startTimerMin }

/-- `DigitalSensor._startTimerMin()` at absolute time `now`: arms the minimum
one-shot with delay `times[step][0]` and registers `_checkTiming` on the edge
opposite to the current level.  A missing step entry raises (`true`). -/
def startTimerMin (now : Nat) (s : Dig) : Dig × Bool :=
  match s.sequenceTimes.get? s.sequenceStep with
  | none => (s, true)
  | some tm =>
    let s := { s with timerMin := some (now + tm.1) }
    let curr := ((s.sequenceStart + s.sequenceStep) % 2) ^^^ 1
    if curr = 0 then ({ s with riseHandler := some EdgeCb.checkTiming }, false)
    else ({ s with fallHandler := some EdgeCb.checkTiming }, false)

/-- `DigitalSensor._startTimerMax()` at absolute time `now` (the callback of
the minimum timer): clears `_timerMin`, arms the maximum one-shot with delay
`times[step][1]`, with callback `_markTimerMax` when a long function is
configured and this is step 0, else `_sequenceReset`. -/
def startTimerMax (now : Nat) (s : Dig) : Dig × Bool :=
  let s := { s with timerMin := none }
  match s.sequenceTimes.get? s.sequenceStep with
  | none => (s, true)
  | some tm =>
    if s.hasLongFn ∧ s.sequenceStep = 0 then
      ({ s with timerMax := TMax.pending (now + tm.2) TMaxCb.mark }, false)
    else
      ({ s with timerMax := TMax.pending (now + tm.2) TMaxCb.reset }, false)

/-- `DigitalSensor._markTimerMax()`: writes the integer `1` into `_timerMax`. -/
def markTimerMax (s : Dig) : Dig :=
  { s with timerMax := TMax.marked }

/-- `DigitalSensor._checkTiming()` at absolute time `now` (registered on the
edge that ends a step's persistence).  Follows the source line by line: the
"marked" branch calls the long function and resets but does not return, so
control falls through to `self._timerMax.clear()` on a `None` field, which
raises (the error flag); the bounce branch cancels the minimum timer, resets
and returns; the valid branch clears the maximum timer, runs the step's
function and advances or resets. -/
def checkTiming (now : Nat) (s : Dig) : Dig × List Em × Bool :=
  let mk : Dig × List Em :=
    if s.timerMax = TMax.marked then
      if s.hasLongFn then (seqReset s, [Em.longFn]) else (s, [])
    else (s, [])
  let s := mk.1
  let ems := mk.2
  if s.timerMax = TMax.marked ∧ ¬ mk.1.hasLongFn then (s, ems, true)
  else
    match s.timerMin with
    | some _ => (seqReset s, ems, false)
    | none =>
      match s.timerMax with
      | TMax.pynone => (s, ems, true)
      | TMax.marked => (s, ems, true)
      | TMax.pending _ _ =>
        let s := { s with timerMax := TMax.pynone }
        match s.seqFnsTruthy.get? s.sequenceStep with
        | none => (s, ems, true)
        | some fnTruthy =>
          let ems := ems ++ (if fnTruthy then [Em.seqAction s.sequenceStep] else [])
          if s.sequenceStep + 1 ≤ s.sequenceLength then
            let s := { s with sequenceStep := s.sequenceStep + 1 }
            let se := startTimerMin now s
            (se.1, ems, se.2)
          else
            (seqReset s, ems, false)

/-- `DigitalSensor.onSequence(first, times, to_dos, long_fn)`: stores the
configuration and performs the initial `_sequenceReset`.  The machine starts
with no handlers registered and no timers pending. -/
def onSequence (first : Nat) (times : List (Nat × Nat)) (fns : List Bool)
    (hasLong : Bool) : Dig :=
  seqReset
    { sequenceStep := 0, sequenceLength := times.length - 1,
      sequenceTimes := times, seqFnsTruthy := fns, hasLongFn := hasLong,
      sequenceStart := first, timerMin := none, timerMax := TMax.pynone,
      riseHandler := none, fallHandler := none }

/-- `DigitalSensor.onRiseAndFall(min_time, max_time, to_do, long_fn)`:
`onSequence(0, [[min_time, max_time]], [to_do], long_fn)` with a truthy
`to_do`. -/
def onRiseAndFall (minT maxT : Nat) (hasLong : Bool) : Dig :=
  onSequence 0 [(minT, maxT)] [true] hasLong

end Dig

/-! ### Discrete-event driver for the sequence machine

The machine reacts to pin edges and timer expirations.  The driver delivers
them in time order; a timer armed to fire at the exact moment an edge arrives
fires first (timer expirations are delivered by the timer interrupt before the
simultaneous edge notification is processed). -/

/-- A pin edge at an absolute time. -/
inductive EdgeK where
  | rise
  | fall
deriving DecidableEq, Repr

/-- The next event the driver will deliver. -/
inductive NextEv where
  | nTMin (t : Nat)
  | nTMax (t : Nat)
  | nEdge (t : Nat) (k : EdgeK)
  | nNone
deriving DecidableEq, Repr

namespace Dig

/-- Earliest pending event among the minimum timer, the maximum timer and the
next pin edge, with ties resolved in that order. -/
def nextEv (s : Dig) (edges : List (Nat × EdgeK)) : NextEv :=
  let em : NextEv :=
    match edges.head? with
    | some e => NextEv.nEdge e.1 e.2
    | none => NextEv.nNone
  let wm : NextEv :=
    match s.timerMax, em with
    | TMax.pending d _, NextEv.nEdge t k => if d ≤ t then NextEv.nTMax d else NextEv.nEdge t k
    | TMax.pending d _, NextEv.nNone => NextEv.nTMax d
    | _, e => e
  match s.timerMin, wm with
  | some d, NextEv.nTMax t => if d ≤ t then NextEv.nTMin d else NextEv.nTMax t
  | some d, NextEv.nEdge t k => if d ≤ t then NextEv.nTMin d else NextEv.nEdge t k
  | some d, NextEv.nNone => NextEv.nTMin d
  | some d, NextEv.nTMin _ => NextEv.nTMin d
  | none, e => e

/-- Deliver a pin edge to whichever callback is registered for it (an edge
with no registered callback is dropped). -/
def dispatchEdge (now : Nat) (k : EdgeK) (s : Dig) : Dig × List Em × Bool :=
  let h := match k with
    | EdgeK.rise => s.riseHandler
    | EdgeK.fall => s.fallHandler
  match h with
  | none => (s, [], false)
  | some EdgeCb.startTimerMin =>
    let se := startTimerMin now s
    (se.1, [], se.2)
  | some EdgeCb.checkTiming => checkTiming now s

/-- Run the machine on a timed edge list until no event is pending (or fuel is
exhausted).  Returns the external invocations in order, the final state, and
whether an uncaught error occurred in a callback (which stops the run). -/
def runEvents : Nat → List (Nat × EdgeK) → Dig → List Em × Dig × Bool
  | 0, _, s => ([], s, false)
  | fuel + 1, edges, s =>
    match nextEv s edges with
    | NextEv.nNone => ([], s, false)
    | NextEv.nTMin t =>
      let se := startTimerMax t s
      if se.2 then ([], se.1, true)
      else runEvents fuel edges se.1
    | NextEv.nTMax _ =>
      match s.timerMax with
      | TMax.pending _ TMaxCb.mark => runEvents fuel edges (markTimerMax s)
      | TMax.pending _ TMaxCb.reset => runEvents fuel edges (seqReset s)
      | _ => ([], s, true)
    | NextEv.nEdge t k =>
      let r := dispatchEdge t k s
      if r.2.2 then (r.2.1, r.1, true)
      else
        let rest := runEvents fuel edges.tail r.1
        (r.2.1 ++ rest.1, rest.2.1, rest.2.2)

/-- A single HIGH pulse: rise at time 0, fall at time `d`, delivered to a
machine configured by `onRiseAndFall minT maxT`. -/
def runPulse (minT maxT : Nat) (hasLong : Bool) (d : Nat) : List Em × Dig × Bool :=
  runEvents 8 [(0, EdgeK.rise), (d, EdgeK.fall)] (onRiseAndFall minT maxT hasLong)

/-- Idle state of the machine: step 0, no timers pending. -/
def Idle (s : Dig) : Prop :=
  s.sequenceStep = 0 ∧ s.timerMin = none ∧ s.timerMax = TMax.pynone

end Dig

/-! ## Helper lemmas: Python mod, list surgery, min/max oracles -/

theorem pymod_of_nonneg_lt {a b : Int} (h0 : 0 ≤ a) (h1 : a < b) : pymod a b = a := by
  unfold pymod
  rw [Int.emod_eq_of_lt h0 h1, show a + b = a + b * 1 by ring,
    Int.add_mul_emod_self_left, Int.emod_eq_of_lt h0 h1]

theorem pymod_nonneg {a b : Int} (hb : 0 < b) : 0 ≤ pymod a b :=
  Int.emod_nonneg _ (ne_of_gt hb)

theorem pymod_lt {a b : Int} (hb : 0 < b) : pymod a b < b :=
  Int.emod_lt_of_pos _ hb

theorem pymod_self {b : Int} (hb : 0 < b) : pymod b b = 0 := by
  unfold pymod
  simp [Int.emod_self]

theorem allSome_map_some (l : List ℚ) : allSome (l.map some) = some l := by
  induction l with
  | nil => rfl
  | cons x xs ih => simp [allSome, ih]

theorem pySum_map_some (l : List ℚ) : pySum (l.map some) = some l.sum := by
  simp [pySum, allSome_map_some]

theorem pyMinQ_map_some (l : List ℚ) (h : 2 ≤ l.length) : pyMinQ (l.map some) = naiveMin l := by
  simp [pyMinQ, allSome_map_some, h]

theorem pyMaxQ_map_some (l : List ℚ) (h : 2 ≤ l.length) : pyMaxQ (l.map some) = naiveMax l := by
  simp [pyMaxQ, allSome_map_some, h]

theorem foldlMin_mem {α : Type} [LinearOrder α] : ∀ (xs : List α) (x : α), xs.foldl min x ∈ x :: xs
  | [], x => by simp
  | y :: ys, x => by
    have h := foldlMin_mem ys (min x y)
    simp only [List.foldl_cons]
    rcases List.mem_cons.mp h with h | h
    · rw [h]
      rcases min_choice x y with hc | hc
      · rw [hc]; exact List.mem_cons_self _ _
      · rw [hc]; exact List.mem_cons_of_mem _ (List.mem_cons_self _ _)
    · exact List.mem_cons_of_mem _ (List.mem_cons_of_mem _ h)

theorem foldlMin_le {α : Type} [LinearOrder α] :
    ∀ (xs : List α) (x y : α), y ∈ x :: xs → xs.foldl min x ≤ y
  | [], x, y, h => by
    rcases List.mem_cons.mp h with h | h
    · simp [h]
    · simp at h
  | z :: zs, x, y, h => by
    simp only [List.foldl_cons]
    have hx : zs.foldl min (min x z) ≤ min x z :=
      foldlMin_le zs (min x z) (min x z) (List.mem_cons_self _ _)
    rcases List.mem_cons.mp h with h | h
    · subst h; exact le_trans hx (min_le_left _ _)
    · rcases List.mem_cons.mp h with h | h
      · subst h; exact le_trans hx (min_le_right _ _)
      · exact foldlMin_le zs (min x z) y (List.mem_cons_of_mem _ h)

theorem foldlMax_mem {α : Type} [LinearOrder α] : ∀ (xs : List α) (x : α), xs.foldl max x ∈ x :: xs
  | [], x => by simp
  | y :: ys, x => by
    have h := foldlMax_mem ys (max x y)
    simp only [List.foldl_cons]
    rcases List.mem_cons.mp h with h | h
    · rw [h]
      rcases max_choice x y with hc | hc
      · rw [hc]; exact List.mem_cons_self _ _
      · rw [hc]; exact List.mem_cons_of_mem _ (List.mem_cons_self _ _)
    · exact List.mem_cons_of_mem _ (List.mem_cons_of_mem _ h)

theorem foldlMax_ge {α : Type} [LinearOrder α] :
    ∀ (xs : List α) (x y : α), y ∈ x :: xs → y ≤ xs.foldl max x
  | [], x, y, h => by
    rcases List.mem_cons.mp h with h | h
    · simp [h]
    · simp at h
  | z :: zs, x, y, h => by
    simp only [List.foldl_cons]
    have hx : max x z ≤ zs.foldl max (max x z) :=
      foldlMax_ge zs (max x z) (max x z) (List.mem_cons_self _ _)
    rcases List.mem_cons.mp h with h | h
    · subst h; exact le_trans (le_max_left _ _) hx
    · rcases List.mem_cons.mp h with h | h
      · subst h; exact le_trans (le_max_right _ _) hx
      · exact foldlMax_ge zs (max x z) y (List.mem_cons_of_mem _ h)

theorem naiveMin_mem {l : List ℚ} {m : ℚ} (h : naiveMin l = some m) : m ∈ l := by
  cases l with
  | nil => simp [naiveMin] at h
  | cons x xs =>
    simp only [naiveMin, Option.some.injEq] at h
    exact h ▸ foldlMin_mem xs x

theorem naiveMin_le {l : List ℚ} {m : ℚ} (h : naiveMin l = some m) : ∀ y ∈ l, m ≤ y := by
  cases l with
  | nil => simp [naiveMin] at h
  | cons x xs =>
    simp only [naiveMin, Option.some.injEq] at h
    exact fun y hy => h ▸ foldlMin_le xs x y hy

theorem naiveMin_eq {l : List ℚ} {m : ℚ} (hm : m ∈ l) (hle : ∀ y ∈ l, m ≤ y) :
    naiveMin l = some m := by
  cases l with
  | nil => simp at hm
  | cons x xs =>
    simp only [naiveMin, Option.some.injEq]
    exact le_antisymm (foldlMin_le xs x m hm) (hle _ (foldlMin_mem xs x))

theorem naiveMax_mem {l : List ℚ} {m : ℚ} (h : naiveMax l = some m) : m ∈ l := by
  cases l with
  | nil => simp [naiveMax] at h
  | cons x xs =>
    simp only [naiveMax, Option.some.injEq] at h
    exact h ▸ foldlMax_mem xs x

theorem naiveMax_ge {l : List ℚ} {m : ℚ} (h : naiveMax l = some m) : ∀ y ∈ l, y ≤ m := by
  cases l with
  | nil => simp [naiveMax] at h
  | cons x xs =>
    simp only [naiveMax, Option.some.injEq] at h
    exact fun y hy => h ▸ foldlMax_ge xs x y hy

theorem naiveMax_eq {l : List ℚ} {m : ℚ} (hm : m ∈ l) (hge : ∀ y ∈ l, y ≤ m) :
    naiveMax l = some m := by
  cases l with
  | nil => simp at hm
  | cons x xs =>
    simp only [naiveMax, Option.some.injEq]
    exact le_antisymm (hge _ (foldlMax_mem xs x)) (foldlMax_ge xs x m hm)

theorem getD_append_length {α : Type} : ∀ (A B : List α) (d : α), (A ++ B).getD A.length d = B.getD 0 d
  | [], _, _ => rfl
  | _ :: A, B, d => getD_append_length A B d

theorem set_append_length {α : Type} : ∀ (A B : List α) (x : α), (A ++ B).set A.length x = A ++ B.set 0 x
  | [], _, _ => rfl
  | a :: A, B, x => congrArg (a :: ·) (set_append_length A B x)

theorem getD_replicate_none : ∀ (m i : Nat), (List.replicate m (none : Option ℚ)).getD i none = none
  | 0, i => by cases i <;> rfl
  | _ + 1, 0 => rfl
  | m + 1, i + 1 => getD_replicate_none m i

theorem getD_map_some : ∀ (l : List ℚ) (i : Nat), i < l.length →
    (l.map some).getD i none = some (l.getD i 0)
  | x :: xs, 0, _ => rfl
  | x :: xs, i + 1, h => getD_map_some xs i (by simpa using h)
  | [], i, h => by simp at h

theorem map_some_set : ∀ (l : List ℚ) (i : Nat) (v : ℚ),
    (l.map some).set i (some v) = (l.set i v).map some
  | [], _, _ => rfl
  | x :: xs, 0, v => rfl
  | x :: xs, i + 1, v => congrArg (some x :: ·) (map_some_set xs i v)

theorem sum_set_eq : ∀ (l : List ℚ) (i : Nat) (v : ℚ), i < l.length →
    (l.set i v).sum = l.sum - l.getD i 0 + v
  | [], i, v, h => by simp at h
  | x :: xs, 0, v, _ => by simp [List.sum_cons]; ring
  | x :: xs, i + 1, v, h => by
    simp only [List.set, List.sum_cons, List.getD_cons_succ]
    rw [sum_set_eq xs i v (by simpa using h)]
    ring

theorem mem_set_self : ∀ (l : List ℚ) (i : Nat) (v : ℚ), i < l.length → v ∈ l.set i v
  | [], i, v, h => by simp at h
  | x :: xs, 0, v, _ => List.mem_cons_self _ _
  | x :: xs, i + 1, v, h =>
    List.mem_cons_of_mem _ (mem_set_self xs i v (by simpa using h))

theorem mem_of_mem_set : ∀ (l : List ℚ) (i : Nat) (v x : ℚ), x ∈ l.set i v → x ∈ l ∨ x = v
  | [], i, v, x, h => by simp at h
  | a :: l, 0, v, x, h => by
    rcases List.mem_cons.mp h with h | h
    · exact Or.inr h
    · exact Or.inl (List.mem_cons_of_mem _ h)
  | a :: l, i + 1, v, x, h => by
    rcases List.mem_cons.mp h with h | h
    · exact Or.inl (h ▸ List.mem_cons_self _ _)
    · rcases mem_of_mem_set l i v x h with h | h
      · exact Or.inl (List.mem_cons_of_mem _ h)
      · exact Or.inr h

theorem mem_set_of_getD_ne : ∀ (l : List ℚ) (i : Nat) (v m : ℚ),
    m ∈ l → l.getD i 0 ≠ m → m ∈ l.set i v
  | [], i, v, m, hm, _ => by simp at hm
  | x :: xs, 0, v, m, hm, hne => by
    rcases List.mem_cons.mp hm with h | h
    · exact absurd h.symm hne
    · exact List.mem_cons_of_mem _ h
  | x :: xs, i + 1, v, m, hm, hne => by
    rcases List.mem_cons.mp hm with h | h
    · exact h ▸ List.mem_cons_self _ _
    · exact List.mem_cons_of_mem _ (mem_set_of_getD_ne xs i v m h hne)

theorem getD_mem : ∀ (l : List ℚ) (i : Nat), i < l.length → l.getD i 0 ∈ l
  | [], i, h => by simp at h
  | x :: xs, 0, _ => List.mem_cons_self _ _
  | x :: xs, i + 1, h => List.mem_cons_of_mem _ (getD_mem xs i (by simpa using h))

/-! ## Concrete objects used by witnesses and counterexamples -/

/-- A concrete environment: every pin reads 7, normalization and conditions
are trivial. -/
def env0 : Env :=
  { readFunc := fun _ => 7, normSem := fun _ v => v, condSem := fun _ => false }

/-- A freshly constructed sensor on pin 0 with every flag off (the base-class
defaults) and the lazily created attributes absent. -/
def sensor0 : Sensor :=
  { pin := Pin.direct 0, sampleBuffer := [], storeMinMax := false,
    storeAverage := false, storeTrend := false, skipEval := false,
    currentSample := none, observationWindowN := none, observationWindowT := none,
    samplingGetType := none, everySampleActions := [], checkFunctions := [],
    checkConditions := [], highPrecision := false, normFunc := none,
    samplingTimer := none, microThread := false, currentBufferIndex := -1,
    currentAverage := none, currentTrend := none, currentDerivative := none,
    minSample := none, maxSample := none, samplingTime := none }

/-! ## Claim C5: fluent chaining returns -/

/-- Claim C5 (as stated) is false: `resetSampleActions` has no `return`
statement, so it evaluates to Python `None`, not to the sensor — chaining off
it would fail. -/
theorem c5_counterexample :
    (Sensor.resetSampleActions sensor0).2 = PyRet.noneRet ∧
    (Sensor.resetCheck sensor0).2 = PyRet.noneRet ∧
    PyRet.noneRet ≠ PyRet.selfRef :=
  ⟨rfl, rfl, by decide⟩

/-- Claim C5 (amended): `doEverySample`, `addCheck` and `setNormFunc` return
the sensor itself for fluent chaining, but `resetSampleActions` and
`resetCheck` return `None` (their bodies have no `return` statement). -/
theorem c5_returns (s : Sensor) (a c f g : Nat) :
    (Sensor.doEverySample a s).2 = PyRet.selfRef ∧
    (Sensor.addCheck c f s).2 = PyRet.selfRef ∧
    (Sensor.setNormFunc g s).2 = PyRet.selfRef ∧
    (Sensor.resetSampleActions s).2 = PyRet.noneRet ∧
    (Sensor.resetCheck s).2 = PyRet.noneRet :=
  ⟨rfl, rfl, rfl, rfl, rfl⟩

/-! ## Claim C6: normalized acquisition with no normalization function -/

/-- Claim C6: on a sensor with no normalization function, a normalized
acquisition returns a "no value" sentinel (`False`, or `None` when the source
itself had no value), leaves the sensor state completely unchanged (no window
update, no `lastSample`/`previousSample` change), performs no per-sample
callback and evaluates no check pair, and raises no exception. -/
theorem c6_norm_skip (env : Env) (s : Sensor) (h : s.normFunc = none) :
    Sensor.getValue env GetKind.norm s = some (s, [], PyVal.pyFalse) ∨
    Sensor.getValue env GetKind.norm s = some (s, [], PyVal.pyNone) := by
  cases hp : s.pin with
  | direct id =>
    left
    simp [Sensor.getValue, hp, h]
  | derived srcAvg srcDeriv f =>
    cases f with
    | currentAverage =>
      cases srcAvg with
      | none => right; simp [Sensor.getValue, hp]
      | some a => left; simp [Sensor.getValue, hp, h]
    | currentDerivative =>
      cases srcDeriv with
      | none => right; simp [Sensor.getValue, hp]
      | some a => left; simp [Sensor.getValue, hp, h]

/-- Witness for C6 at a concrete sensor. -/
theorem c6_norm_skip_witness :
    Sensor.getValue env0 GetKind.norm sensor0 = some (sensor0, [], PyVal.pyFalse) ∨
    Sensor.getValue env0 GetKind.norm sensor0 = some (sensor0, [], PyVal.pyNone) :=
  c6_norm_skip env0 sensor0 rfl

/-! ## Claim C7: stopSampling resets state -/

/-- A sensor that accumulated an average while `storeAverage` was on and whose
user then turned `storeAverage` off (the flags are public, documented control
attributes). -/
def c7sensor : Sensor :=
  { sensor0 with storeAverage := false, currentAverage := some 5,
                 samplingTimer := some true }

/-- Claim C7 (as stated) is false: `_resetSamplingParams` clears an aggregate
only when its store flag is currently set, so a sensor whose `storeAverage`
flag was turned off after an average had been cached still shows the stale
average after `stopSampling`. -/
theorem c7_counterexample :
    (Sensor.stopSampling c7sensor).1.currentAverage = some 5 ∧
    some (5 : ℚ) ≠ (none : Option ℚ) :=
  ⟨rfl, by decide⟩

/-- Claim C7 (amended): `stopSampling` clears the active timer (and resets
`_samplingTime`, the exit signal of the microsecond loop), resets the write
cursor, and resets to "no data" the derivative and every aggregate whose store
flag is currently set; an aggregate whose store flag is currently off keeps
its previous (possibly stale) value. -/
theorem c7_stop_reset (s : Sensor) :
    (Sensor.stopSampling s).1.currentBufferIndex = -1 ∧
    (Sensor.stopSampling s).1.samplingTime = none ∧
    (Sensor.stopSampling s).1.currentDerivative = none ∧
    (s.storeAverage = true → (Sensor.stopSampling s).1.currentAverage = none) ∧
    (s.storeTrend = true → (Sensor.stopSampling s).1.currentTrend = none) ∧
    (s.storeMinMax = true → (Sensor.stopSampling s).1.minSample = none ∧
      (Sensor.stopSampling s).1.maxSample = none) ∧
    (s.storeAverage = false → (Sensor.stopSampling s).1.currentAverage = s.currentAverage) ∧
    (s.storeTrend = false → (Sensor.stopSampling s).1.currentTrend = s.currentTrend) ∧
    (s.storeMinMax = false → (Sensor.stopSampling s).1.minSample = s.minSample ∧
      (Sensor.stopSampling s).1.maxSample = s.maxSample) ∧
    (s.samplingTimer.isSome = true → (Sensor.stopSampling s).1.samplingTimer = some false) ∧
    (Sensor.stopSampling s).2 = PyRet.selfRef := by
  cases hA : s.storeAverage <;> cases hT : s.storeTrend <;> cases hM : s.storeMinMax <;>
    cases hTm : s.samplingTimer <;>
      simp [Sensor.stopSampling, Sensor.resetSamplingParams, hA, hT, hM, hTm]

/-- Witness for C7 at a concrete sensor with all store flags set. -/
theorem c7_stop_reset_witness :
    ({ sensor0 with storeAverage := true, storeTrend := true,
                    storeMinMax := true } : Sensor).storeAverage = true ∧
    (Sensor.stopSampling { sensor0 with storeAverage := true, storeTrend := true,
                                        storeMinMax := true }).1.currentAverage = none := by
  refine ⟨rfl, ?_⟩
  exact (c7_stop_reset { sensor0 with storeAverage := true, storeTrend := true,
                                      storeMinMax := true }).2.2.2.1 rfl

/-! ## Claim C9: derived sensor before/after the source has data -/

/-- Claim C9: an acquisition on a derived sensor whose selected source field
has never been produced returns the `None` sentinel as an ordinary value —
never an exception — and skips the whole pipeline (no window update, no
callbacks, no checks, state untouched); once the source's `currentAverage`
exists, a raw acquisition returns exactly that average. -/
theorem c9_derived (env : Env) (s : Sensor) :
    (∀ dv, s.pin = Pin.derived none dv PField.currentAverage →
      ∀ gt, Sensor.getValue env gt s = some (s, [], PyVal.pyNone)) ∧
    (∀ av, s.pin = Pin.derived av none PField.currentDerivative →
      ∀ gt, Sensor.getValue env gt s = some (s, [], PyVal.pyNone)) ∧
    (∀ a dv, s.pin = Pin.derived (some a) dv PField.currentAverage →
      ∀ st evs r, Sensor.getValue env GetKind.raw s = some (st, evs, r) →
        r = PyVal.num a) := by
  refine ⟨fun dv hp gt => ?_, fun av hp gt => ?_, fun a dv hp st evs r hres => ?_⟩
  · simp [Sensor.getValue, hp]
  · simp [Sensor.getValue, hp]
  · simp only [Sensor.getValue, hp] at hres
    simp at hres
    split at hres
    · exact absurd hres (by simp)
    · split at hres
      · exact absurd hres (by simp)
      · simp only [Option.some.injEq, Prod.mk.injEq] at hres
        exact hres.2.2.symm

/-- A derived sensor observing the `currentAverage` of a source that has not
yet produced one. -/
def derived0 : Sensor :=
  { sensor0 with pin := Pin.derived none none PField.currentAverage }

/-- Witness for C9 at concrete derived sensors. -/
theorem c9_derived_witness :
    Sensor.getValue env0 GetKind.raw derived0 = some (derived0, [], PyVal.pyNone) ∧
    (∀ st evs r,
      Sensor.getValue env0 GetKind.raw
        { derived0 with pin := Pin.derived (some 3) none PField.currentAverage } =
          some (st, evs, r) → r = PyVal.num 3) := by
  constructor
  · exact (c9_derived env0 derived0).1 none rfl GetKind.raw
  · exact fun st evs r h =>
      (c9_derived env0
        { derived0 with pin := Pin.derived (some 3) none PField.currentAverage }).2.2
        3 none rfl st evs r h

/-! ## Claim C10: the skipEval latch -/

/-- Claim C10: `startSampling` without an observation window sets `skipEval`;
no public operation ever resets it to `false` — not `stopSampling`, not a
later `startSampling` that does supply a window, nor any of the configuration
or acquisition methods — and while it is set every acquisition skips aggregate
evaluation entirely (only `_currentSample` is updated). -/
theorem c10_skipEval_latch :
    (∀ (t : ℚ) (gt : GetKind) (u : TimeUnit) (s : Sensor),
      (Sensor.startSampling t none gt u s).1.skipEval = true) ∧
    (∀ s : Sensor, s.skipEval = true →
      (∀ (t : ℚ) (w : Option Nat) (gt : GetKind) (u : TimeUnit),
        (Sensor.startSampling t w gt u s).1.skipEval = true) ∧
      (Sensor.stopSampling s).1.skipEval = true ∧
      (∀ n, (Sensor.setObservationWindow n s).skipEval = true) ∧
      (∀ t, (Sensor.setSamplingTime t s).skipEval = true) ∧
      (∀ a, (Sensor.doEverySample a s).1.skipEval = true) ∧
      (Sensor.resetSampleActions s).1.skipEval = true ∧
      (∀ c f, (Sensor.addCheck c f s).1.skipEval = true) ∧
      (Sensor.resetCheck s).1.skipEval = true ∧
      (∀ f, (Sensor.setNormFunc f s).1.skipEval = true) ∧
      (Sensor.wait s).1.skipEval = true ∧
      (∀ env gt st evs r, Sensor.getValue env gt s = some (st, evs, r) →
        st.skipEval = true)) ∧
    (∀ (env : Env) (gt : GetKind) (s : Sensor), s.skipEval = true →
      ∀ st evs r, Sensor.getValue env gt s = some (st, evs, r) →
        st.currentAverage = s.currentAverage ∧ st.minSample = s.minSample ∧
        st.maxSample = s.maxSample ∧ st.currentTrend = s.currentTrend ∧
        st.currentDerivative = s.currentDerivative ∧
        st.sampleBuffer = s.sampleBuffer ∧
        st.currentBufferIndex = s.currentBufferIndex) := by
  refine ⟨?_, ?_, ?_⟩
  · intro t gt u s
    cases u <;> simp [Sensor.startSampling]
  · intro s hs
    refine ⟨?_, ?_, ?_, ?_, ?_, ?_, ?_, ?_, ?_, ?_, ?_⟩
    · intro t w gt u
      cases w <;> cases u <;> simp [Sensor.startSampling, hs]
    · cases hTm : s.samplingTimer <;>
        cases hA : s.storeAverage <;> cases hT : s.storeTrend <;> cases hM : s.storeMinMax <;>
          simp [Sensor.stopSampling, Sensor.resetSamplingParams, hTm, hA, hT, hM, hs]
    · intro n
      unfold Sensor.setObservationWindow
      cases s.samplingTime with
      | none => simpa using hs
      | some t =>
        by_cases ht : t ≠ 0 <;> simp [ht, hs]
    · intro t; simpa [Sensor.setSamplingTime] using hs
    · intro a; simpa [Sensor.doEverySample] using hs
    · simpa [Sensor.resetSampleActions] using hs
    · intro c f; simpa [Sensor.addCheck] using hs
    · simpa [Sensor.resetCheck] using hs
    · intro f; simpa [Sensor.setNormFunc] using hs
    · simpa [Sensor.wait] using hs
    · intro env gt st evs r hres
      simp only [Sensor.getValue] at hres
      split at hres
      · simp at hres
        rw [← hres.1, hs]
      · split at hres
        · simp at hres
          rw [← hres.1, hs]
        · simp only [hs] at hres
          simp at hres
          split at hres
          · exact absurd hres (by simp)
          · simp only [Option.some.injEq, Prod.mk.injEq] at hres
            rw [← hres.1]
  · intro env gt s hs st evs r hres
    simp only [Sensor.getValue] at hres
    split at hres
    · simp at hres
      rw [← hres.1]
      exact ⟨rfl, rfl, rfl, rfl, rfl, rfl, rfl⟩
    · split at hres
      · simp at hres
        rw [← hres.1]
        exact ⟨rfl, rfl, rfl, rfl, rfl, rfl, rfl⟩
      · simp only [hs] at hres
        simp at hres
        split at hres
        · exact absurd hres (by simp)
        · simp only [Option.some.injEq, Prod.mk.injEq] at hres
          rw [← hres.1]
          exact ⟨rfl, rfl, rfl, rfl, rfl, rfl, rfl⟩

/-- Witness for C10 at concrete inputs. -/
theorem c10_skipEval_latch_witness :
    (Sensor.startSampling 100 none GetKind.raw TimeUnit.millis sensor0).1.skipEval = true ∧
    (Sensor.stopSampling { sensor0 with skipEval := true }).1.skipEval = true ∧
    (Sensor.startSampling 100 (some 5) GetKind.raw TimeUnit.millis
      { sensor0 with skipEval := true }).1.skipEval = true := by
  refine ⟨c10_skipEval_latch.1 100 GetKind.raw TimeUnit.millis sensor0, ?_, ?_⟩
  · exact (c10_skipEval_latch.2.1 { sensor0 with skipEval := true } rfl).2.1
  · exact (c10_skipEval_latch.2.1 { sensor0 with skipEval := true } rfl).1
      100 (some 5) GetKind.raw TimeUnit.millis

/-! ## Pool: general properties of one tick -/

theorem getD_of_get? {α : Type} {l : List α} {i : Nat} {x d : α}
    (h : l.get? i = some x) : l.getD i d = x := by
  rw [List.getD_eq_getElem?_getD, ← List.get?_eq_getElem?, h]
  rfl

theorem pyMinNat_spec (l : List Nat) (h2 : 2 ≤ l.length) :
    ∃ m, Pool.pyMinNat l = some m ∧ m ∈ l ∧ ∀ x ∈ l, m ≤ x := by
  cases l with
  | nil => simp at h2
  | cons x rest =>
    refine ⟨rest.foldl min x, ?_, foldlMin_mem rest x, fun y hy => foldlMin_le rest x y hy⟩
    have h2' : 2 ≤ (x :: rest).length := h2
    simp only [Pool.pyMinNat, if_pos h2']

theorem acqLoop_eq (gts : List GetKind) :
    ∀ (l : List Nat), (∀ i ∈ l, i < gts.length) →
      Pool.acqLoop gts l = some (l.map fun i => (i, gts.getD i GetKind.raw))
  | [], _ => rfl
  | i :: rest, h => by
    have hi : i < gts.length := h i (List.mem_cons_self _ _)
    have hsome : gts.get? i = some (gts.getD i GetKind.raw) := by
      rw [List.get?_eq_get hi]
      exact congrArg some (getD_of_get? (List.get?_eq_get hi)).symm
    simp only [Pool.acqLoop, hsome,
      acqLoop_eq gts rest (fun j hj => h j (List.mem_cons_of_mem _ hj))]
    simp

theorem sampleLoop_spec (diff times : List Nat) (m : Nat) :
    ∀ (rem i : Nat), i + rem ≤ diff.length → i + rem ≤ times.length →
      ∃ sel nd, Pool.sampleLoop diff times m i rem = some (sel, nd) ∧
        nd.length = rem ∧
        (∀ j, j ∈ sel ↔ i ≤ j ∧ j < i + rem ∧ diff.getD j 0 = m) ∧
        (∀ k, k < rem →
          nd.get? k = some (if diff.getD (i + k) 0 = m
                            then times.getD (i + k) 0
                            else diff.getD (i + k) 0 - m))
  | 0, i, _, _ => by
    refine ⟨[], [], rfl, rfl, fun j => ?_, fun k hk => by omega⟩
    simp
    omega
  | rem + 1, i, hd, ht => by
    have hdi : i < diff.length := by omega
    obtain ⟨d, hget⟩ : ∃ d, diff.get? i = some d := by
      rw [List.get?_eq_get hdi]; exact ⟨_, rfl⟩
    have hdD : diff.getD i 0 = d := getD_of_get? hget
    obtain ⟨sel', nd', hrec, hlen, hmem, hidx⟩ :=
      sampleLoop_spec diff times m rem (i + 1) (by omega) (by omega)
    by_cases hdm : d = m
    · have hti : i < times.length := by omega
      obtain ⟨pt, htget⟩ : ∃ pt, times.get? i = some pt := by
        rw [List.get?_eq_get hti]; exact ⟨_, rfl⟩
      refine ⟨i :: sel', pt :: nd', ?_, by simp [hlen], fun j => ?_, fun k hk => ?_⟩
      · simp only [Pool.sampleLoop, hget, hdm, if_pos rfl, htget, hrec]
        rfl
      · simp only [List.mem_cons, hmem j]
        constructor
        · rintro (rfl | ⟨h1, h2, h3⟩)
          · exact ⟨le_refl _, by omega, hdm ▸ hdD⟩
          · exact ⟨by omega, by omega, h3⟩
        · rintro ⟨h1, h2, h3⟩
          rcases Nat.eq_or_lt_of_le h1 with rfl | h1'
          · exact Or.inl rfl
          · exact Or.inr ⟨h1', by omega, h3⟩
      · cases k with
        | zero =>
          rw [List.get?_cons_zero, Nat.add_zero, hdD, hdm, if_pos rfl,
            getD_of_get? htget]
        | succ k' =>
          have := hidx k' (by omega)
          rw [List.get?_cons_succ, show i + (k' + 1) = i + 1 + k' by omega]
          exact this
    · refine ⟨sel', (d - m) :: nd', ?_, by simp [hlen], fun j => ?_, fun k hk => ?_⟩
      · simp only [Pool.sampleLoop, hget, hdm, if_neg hdm, hrec]
        rfl
      · rw [hmem j]
        constructor
        · rintro ⟨h1, h2, h3⟩
          exact ⟨by omega, by omega, h3⟩
        · rintro ⟨h1, h2, h3⟩
          rcases Nat.eq_or_lt_of_le h1 with rfl | h1'
          · exact absurd (hdD ▸ h3) hdm
          · exact ⟨h1', by omega, h3⟩
      · cases k with
        | zero =>
          rw [List.get?_cons_zero, Nat.add_zero, hdD, if_neg hdm]
        | succ k' =>
          have := hidx k' (by omega)
          rw [List.get?_cons_succ, show i + (k' + 1) = i + 1 + k' by omega]
          exact this

theorem pool_sample_spec (p : Pool) (m : Nat)
    (hd : p.diffTimes.length = p.sensorsN)
    (ht : p.samplingTimes.length = p.sensorsN)
    (hri : ∀ i ∈ p.readIndexes, i < p.getTypes.length)
    (hmin : Pool.pyMinNat p.diffTimes = some m)
    (htm : p.stopFlag = false → ∃ b, p.samplingTimer = some b) :
    ∃ p' acqs, Pool.sample p = some (p', acqs, if p.stopFlag then none else some m) ∧
      acqs = p.readIndexes.map (fun i => (i, p.getTypes.getD i GetKind.raw)) ∧
      (∀ j, j ∈ p'.readIndexes ↔ j < p.sensorsN ∧ p.diffTimes.getD j 0 = m) ∧
      p'.diffTimes.length = p.sensorsN ∧
      (∀ k, k < p.sensorsN → p'.diffTimes.get? k =
        some (if p.diffTimes.getD k 0 = m then p.samplingTimes.getD k 0
              else p.diffTimes.getD k 0 - m)) ∧
      p'.stopFlag = false ∧
      p'.samplingTimes = p.samplingTimes ∧ p'.getTypes = p.getTypes ∧
      p'.sensorsN = p.sensorsN ∧
      (p.stopFlag = true → p'.samplingTimer = p.samplingTimer) := by
  obtain ⟨sel, nd, hsl, hndlen, hmem, hndidx⟩ :=
    sampleLoop_spec p.diffTimes p.samplingTimes m p.sensorsN 0
      (by omega) (by omega)
  have hacq := acqLoop_eq p.getTypes p.readIndexes hri
  cases hstop : p.stopFlag with
  | false =>
    obtain ⟨b, hb⟩ := htm hstop
    refine ⟨{ p with readIndexes := sel, diffTimes := nd, samplingTimer := some true },
      p.readIndexes.map (fun i => (i, p.getTypes.getD i GetKind.raw)),
      ?_, rfl, ?_, ?_, ?_, ?_, ?_, ?_, ?_, ?_⟩
    · simp [Pool.sample, hacq, hmin, hsl, hstop, hb]
    · intro j
      rw [hmem j]
      constructor
      · rintro ⟨_, h2, h3⟩; exact ⟨by omega, h3⟩
      · rintro ⟨h2, h3⟩; exact ⟨by omega, by omega, h3⟩
    · exact hndlen
    · intro k hk
      simpa using hndidx k hk
    · exact hstop
    · rfl
    · rfl
    · rfl
    · exact fun h => nomatch h
  | true =>
    refine ⟨{ p with readIndexes := sel, diffTimes := nd, stopFlag := false },
      p.readIndexes.map (fun i => (i, p.getTypes.getD i GetKind.raw)),
      ?_, rfl, ?_, ?_, ?_, ?_, ?_, ?_, ?_, ?_⟩
    · simp [Pool.sample, hacq, hmin, hsl, hstop]
    · intro j
      rw [hmem j]
      constructor
      · rintro ⟨_, h2, h3⟩; exact ⟨by omega, h3⟩
      · rintro ⟨h2, h3⟩; exact ⟨by omega, by omega, h3⟩
    · exact hndlen
    · intro k hk
      simpa using hndidx k hk
    · rfl
    · rfl
    · rfl
    · rfl
    · intro _; rfl

/-! ## Claim C3: the remaining-time multiplexing schedule -/

/-- The pool scheduling state that `startSampling([1000, 700], ..., ["raw",
"raw"])` constructs just before it fires the first tick synchronously. -/
def c3pool : Pool :=
  { samplingTimes := [1000, 700], diffTimes := [1000, 700],
    getTypes := [GetKind.raw, GetKind.raw], readIndexes := [],
    sensorsN := 2, samplingTimer := some false, stopFlag := false }

/-- The observed tick trace over 2100 ms for periods `[1000, 700]`. -/
def c3run : List (Nat × List (Nat × GetKind)) :=
  [(0, []), (700, [(1, GetKind.raw)]), (1000, [(0, GetKind.raw)]),
   (1400, [(1, GetKind.raw)]), (2000, [(0, GetKind.raw)]),
   (2100, [(1, GetKind.raw)])]

/-- Claim C3: with periods `[1000, 700]`, over 2100 ms sensor 0 is acquired
exactly at t = 1000 and 2000 and sensor 1 exactly at t = 700, 1400 and 2100,
never closer together than the sensor's own period; and in general each tick
acquires the sensors selected at the previous tick, selects exactly the
sensors whose remaining time equals the current minimum `m`, resets their
remaining time to their period, decrements all others by `m`, and re-arms the
single shared timer with delay `m`. -/
theorem c3_schedule :
    (Pool.startSampling [1000, 700] [GetKind.raw, GetKind.raw] (Pool.init 2) =
      Pool.sample c3pool) ∧
    Pool.ticks 6 0 c3pool = some c3run ∧
    Pool.acqTimesOf c3run 0 = [1000, 2000] ∧
    Pool.acqTimesOf c3run 1 = [700, 1400, 2100] ∧
    List.Chain' (fun a b => a + 1000 ≤ b) (Pool.acqTimesOf c3run 0) ∧
    List.Chain' (fun a b => a + 700 ≤ b) (Pool.acqTimesOf c3run 1) ∧
    (∀ (p : Pool) (m : Nat),
      p.diffTimes.length = p.sensorsN → p.samplingTimes.length = p.sensorsN →
      2 ≤ p.sensorsN → (∀ i ∈ p.readIndexes, i < p.getTypes.length) →
      p.samplingTimer.isSome = true → p.stopFlag = false →
      Pool.pyMinNat p.diffTimes = some m →
      m ∈ p.diffTimes ∧ (∀ x ∈ p.diffTimes, m ≤ x) ∧
      ∃ p' acqs, Pool.sample p = some (p', acqs, some m) ∧
        acqs = p.readIndexes.map (fun i => (i, p.getTypes.getD i GetKind.raw)) ∧
        (∀ j, j ∈ p'.readIndexes ↔ j < p.sensorsN ∧ p.diffTimes.getD j 0 = m) ∧
        p'.diffTimes.length = p.sensorsN ∧
        (∀ k, k < p.sensorsN → p'.diffTimes.get? k =
          some (if p.diffTimes.getD k 0 = m then p.samplingTimes.getD k 0
                else p.diffTimes.getD k 0 - m))) := by
  refine ⟨rfl, by decide, by decide, by decide, ?_, ?_, ?_⟩
  · rw [show Pool.acqTimesOf c3run 0 = [1000, 2000] by decide]
    exact List.chain'_cons.mpr ⟨by norm_num, List.chain'_singleton _⟩
  · rw [show Pool.acqTimesOf c3run 1 = [700, 1400, 2100] by decide]
    exact List.chain'_cons.mpr ⟨by norm_num,
      List.chain'_cons.mpr ⟨by norm_num, List.chain'_singleton _⟩⟩
  intro p m hd ht h2 hri htm hstop hmin
  obtain ⟨m', hm', hmem', hle'⟩ := pyMinNat_spec p.diffTimes (by omega)
  have hmm : m' = m := by
    rw [hmin] at hm'
    exact (Option.some.injEq _ _ ▸ hm').symm
  subst hmm
  refine ⟨hmem', hle', ?_⟩
  obtain ⟨p', acqs, hs, hacqs, hmem, hlen, hidx, _, _, _, _, _⟩ :=
    pool_sample_spec p m' hd ht hri hmin
      (fun _ => ⟨p.samplingTimer.get htm, by simp⟩)
  refine ⟨p', acqs, ?_, hacqs, hmem, hlen, hidx⟩
  rw [hstop] at hs
  simpa using hs

/-- Witness for C3's general tick clause at the concrete pool. -/
theorem c3_schedule_witness :
    ∃ p' acqs, Pool.sample c3pool = some (p', acqs, some 700) :=
  match (c3_schedule.2.2.2.2.2.2 c3pool 700 rfl rfl (by decide) (by decide)
      rfl rfl (by decide)).2.2 with
  | ⟨p', acqs, hs, _⟩ => ⟨p', acqs, hs⟩

/-! ## Claim C8: the pool stop flag -/

/-- A pool state right after `stopSampling`, with a tick still queued
(sensor 0 was selected for acquisition at the next tick). -/
def c8pool : Pool :=
  { samplingTimes := [1000, 700], diffTimes := [300, 700],
    getTypes := [GetKind.raw, GetKind.raw], readIndexes := [0],
    sensorsN := 2, samplingTimer := some false, stopFlag := true }

/-- Claim C8 (as stated) is false: the stop flag is consulted at the *bottom*
of `_sample`, after the acquisition loop, so an in-flight tick that was
already queued still acquires its due sensors (here sensor 0) — it does not
"acquire no sensor". -/
theorem c8_counterexample :
    (Pool.sample c8pool).map (fun r => (r.2.1, r.2.2)) =
      some ([(0, GetKind.raw)], none) ∧
    ([(0, GetKind.raw)] : List (Nat × GetKind)) ≠ [] := by
  constructor
  · rfl
  · decide

/-- Claim C8 (amended): after `stopSampling` the stop flag is consulted at the
end of the next tick: the in-flight tick still completes — performing the
acquisitions that were already scheduled and updating the remaining times,
without error — but it does not re-arm the shared timer (no tick is scheduled
after `stopSampling` returns), and it lowers the flag again. -/
theorem c8_stop_flag (p q : Pool)
    (hstop : Pool.stopSampling p = some q)
    (hd : q.diffTimes.length = q.sensorsN)
    (ht : q.samplingTimes.length = q.sensorsN)
    (h2 : 2 ≤ q.sensorsN)
    (hri : ∀ i ∈ q.readIndexes, i < q.getTypes.length) :
    ∃ q' acqs, Pool.sample q = some (q', acqs, none) ∧
      acqs = q.readIndexes.map (fun i => (i, q.getTypes.getD i GetKind.raw)) ∧
      acqs.length = q.readIndexes.length ∧
      q'.stopFlag = false ∧
      q'.samplingTimer = some false := by
  have hq : q.stopFlag = true ∧ q.samplingTimer = some false := by
    unfold Pool.stopSampling at hstop
    cases htm : p.samplingTimer with
    | none => rw [htm] at hstop; exact absurd hstop (by simp)
    | some b =>
      rw [htm] at hstop
      simp only [Option.some.injEq] at hstop
      rw [← hstop]
      exact ⟨rfl, rfl⟩
  obtain ⟨m, hmin, _, _⟩ := pyMinNat_spec q.diffTimes (by omega)
  obtain ⟨q', acqs, hs, hacqs, _, _, _, hflag, _, _, _, htmr⟩ :=
    pool_sample_spec q m hd ht hri hmin (fun hf => absurd (hq.1 ▸ hf) (by simp))
  rw [hq.1] at hs
  simp only [if_pos rfl] at hs
  exact ⟨q', acqs, hs, hacqs, by rw [hacqs, List.length_map], hflag,
    (htmr hq.1).trans hq.2⟩

/-- Witness for C8 at a concrete stopped pool. -/
theorem c8_stop_flag_witness :
    ∃ q' acqs, Pool.sample c8pool = some (q', acqs, none) ∧ q'.stopFlag = false := by
  obtain ⟨q', acqs, hs, _, _, hflag, _⟩ :=
    c8_stop_flag { c8pool with stopFlag := false, samplingTimer := some true } c8pool
      rfl rfl rfl (by decide) (by decide)
  exact ⟨q', acqs, hs, hflag⟩

/-! ## Claim C4: onRiseAndFall timing -/

/-- Claim C4 (as stated) is false at a HIGH duration of 2000 ms with an
overflow action configured: the maximum one-shot is armed with delay
`max_time` only when the minimum timer fires (at t = 500), so it expires at
t = 2500, not t = 2000 — a 2000 ms pulse invokes the step action, not the
overflow action. -/
theorem c4_counterexample :
    (Dig.runPulse 500 2000 true 2000).1 = [Em.seqAction 0] ∧
    Em.longFn ∉ (Dig.runPulse 500 2000 true 2000).1 ∧
    (Dig.runPulse 500 2000 true 2000).2.2 = false := by
  refine ⟨by decide, by decide, by decide⟩

set_option maxHeartbeats 2000000 in
theorem c4_under_min (b : Bool) (d : Nat) (h : d < 500) :
    (Dig.runPulse 500 2000 b d).1 = [] ∧
      Dig.Idle (Dig.runPulse 500 2000 b d).2.1 ∧
      (Dig.runPulse 500 2000 b d).2.2 = false := by
  have h1 : ¬ 500 ≤ d := by omega
  simp [Dig.runPulse, Dig.runEvents, Dig.nextEv, Dig.onRiseAndFall, Dig.onSequence,
    Dig.seqReset, Dig.dispatchEdge, Dig.startTimerMin, Dig.startTimerMax,
    Dig.checkTiming, Dig.markTimerMax, Dig.Idle, h1]

set_option maxHeartbeats 2000000 in
theorem c4_valid (b : Bool) (d : Nat) (h1 : 500 ≤ d) (h2 : d < 2500) :
    (Dig.runPulse 500 2000 b d).1 = [Em.seqAction 0] ∧
      Dig.Idle (Dig.runPulse 500 2000 b d).2.1 ∧
      (Dig.runPulse 500 2000 b d).2.2 = false := by
  have h2' : ¬ 2500 ≤ d := by omega
  cases b <;>
    simp [Dig.runPulse, Dig.runEvents, Dig.nextEv, Dig.onRiseAndFall, Dig.onSequence,
      Dig.seqReset, Dig.dispatchEdge, Dig.startTimerMin, Dig.startTimerMax,
      Dig.checkTiming, Dig.markTimerMax, Dig.Idle, h1, h2']

set_option maxHeartbeats 2000000 in
theorem c4_long_silent (d : Nat) (h : 2500 ≤ d) :
    (Dig.runPulse 500 2000 false d).1 = [] ∧
      Dig.Idle (Dig.runPulse 500 2000 false d).2.1 ∧
      (Dig.runPulse 500 2000 false d).2.2 = true := by
  have h1 : 500 ≤ d := by omega
  simp [Dig.runPulse, Dig.runEvents, Dig.nextEv, Dig.onRiseAndFall, Dig.onSequence,
    Dig.seqReset, Dig.dispatchEdge, Dig.startTimerMin, Dig.startTimerMax,
    Dig.checkTiming, Dig.markTimerMax, Dig.Idle, h1, h]

set_option maxHeartbeats 2000000 in
theorem c4_long_overflow (d : Nat) (h : 2500 ≤ d) :
    (Dig.runPulse 500 2000 true d).1 = [Em.longFn] ∧
      Dig.Idle (Dig.runPulse 500 2000 true d).2.1 ∧
      (Dig.runPulse 500 2000 true d).2.2 = true := by
  have h1 : 500 ≤ d := by omega
  simp [Dig.runPulse, Dig.runEvents, Dig.nextEv, Dig.onRiseAndFall, Dig.onSequence,
    Dig.seqReset, Dig.dispatchEdge, Dig.startTimerMin, Dig.startTimerMax,
    Dig.checkTiming, Dig.markTimerMax, Dig.Idle, h1, h]

/-- Claim C4 (amended): for `onRiseAndFall(500, 2000, action)` and a single
HIGH pulse of duration `d` (a timer armed to expire exactly when the opposite
edge arrives fires first): `d < 500` invokes neither action nor overflow and
resets to Idle; `500 ≤ d < 2500` invokes the action exactly once and resets
(the upper bound is min + max = 2500 because the maximum timer is armed with
delay 2000 only when the minimum timer fires); `d ≥ 2500` with no overflow
configured invokes nothing, the machine having been reset to Idle by the
maximum timer, though the eventual fall edge still reaches the stale
`_checkTiming` fall handler and raises an uncaught error there; `d ≥ 2500`
with overflow configured invokes the overflow action exactly once and resets
to Idle, after which `_checkTiming` falls through the missing `return` and
raises the same uncaught error on `None.clear()`. -/
theorem c4_rise_fall (b : Bool) (d : Nat) :
    (d < 500 →
      (Dig.runPulse 500 2000 b d).1 = [] ∧
      Dig.Idle (Dig.runPulse 500 2000 b d).2.1 ∧
      (Dig.runPulse 500 2000 b d).2.2 = false) ∧
    (500 ≤ d → d < 2500 →
      (Dig.runPulse 500 2000 b d).1 = [Em.seqAction 0] ∧
      Dig.Idle (Dig.runPulse 500 2000 b d).2.1 ∧
      (Dig.runPulse 500 2000 b d).2.2 = false) ∧
    (2500 ≤ d →
      (Dig.runPulse 500 2000 false d).1 = [] ∧
      Dig.Idle (Dig.runPulse 500 2000 false d).2.1 ∧
      (Dig.runPulse 500 2000 false d).2.2 = true) ∧
    (2500 ≤ d →
      (Dig.runPulse 500 2000 true d).1 = [Em.longFn] ∧
      Dig.Idle (Dig.runPulse 500 2000 true d).2.1 ∧
      (Dig.runPulse 500 2000 true d).2.2 = true) :=
  ⟨c4_under_min b d, c4_valid b d, c4_long_silent d, c4_long_overflow d⟩

/-- Witness for C4 at concrete durations 400, 1000 and 3000 ms. -/
theorem c4_rise_fall_witness :
    (Dig.runPulse 500 2000 true 400).1 = [] ∧
    (Dig.runPulse 500 2000 true 1000).1 = [Em.seqAction 0] ∧
    (Dig.runPulse 500 2000 true 3000).1 = [Em.longFn] ∧
    (Dig.runPulse 500 2000 false 3000).1 = [] :=
  ⟨((c4_rise_fall true 400).1 (by norm_num)).1,
   ((c4_rise_fall true 1000).2.1 (by norm_num) (by norm_num)).1,
   ((c4_rise_fall true 3000).2.2.2 (by norm_num)).1,
   ((c4_rise_fall false 3000).2.2.1 (by norm_num)).1⟩

/-! ## Claims C1 and C2: window statistics

`winInit n sa smm hp` is a freshly reset sensor whose window of capacity `n`
is configured with the given `storeAverage` / `storeMinMax` / `highPrecision`
flags (trend off, no sampling time, so the derivative/trend block of
`_evalParams` is skipped, exactly as for manual `get` acquisitions).
`fillState` is the state after the first `k < n` pushes; `fullState` is a
state whose buffer has been fully populated. -/

def winInit (n : Nat) (sa smm hp : Bool) : Sensor :=
  { pin := Pin.direct 0, sampleBuffer := List.replicate n none, storeMinMax := smm,
    storeAverage := sa, storeTrend := false, skipEval := false, currentSample := none,
    observationWindowN := some n, observationWindowT := none, samplingGetType := none,
    everySampleActions := [], checkFunctions := [], checkConditions := [],
    highPrecision := hp, normFunc := none, samplingTimer := none, microThread := false,
    currentBufferIndex := -1, currentAverage := none, currentTrend := none,
    currentDerivative := none, minSample := none, maxSample := none, samplingTime := none }

def fillState (n : Nat) (sa smm hp : Bool) (pre : List ℚ) : Sensor :=
  { winInit n sa smm hp with
      sampleBuffer := pre.map some ++ List.replicate (n - pre.length) none,
      currentBufferIndex := (pre.length : Int) - 1 }

theorem getD_append_of_length {α : Type} (A B : List α) (k : Nat) (hk : A.length = k)
    (d : α) : (A ++ B).getD k d = B.getD 0 d :=
  hk ▸ getD_append_length A B d

theorem set_append_of_length {α : Type} (A B : List α) (k : Nat) (hk : A.length = k)
    (x : α) : (A ++ B).set k x = A ++ B.set 0 x :=
  hk ▸ set_append_length A B x

theorem fill_step_mid (n : Nat) (sa smm hp : Bool) (pre : List ℚ) (v : ℚ)
    (h1 : pre.length + 1 < n) :
    Sensor.evalParams v (fillState n sa smm hp pre) =
      some (fillState n sa smm hp (pre ++ [v])) := by
  have hn0 : ¬ (n = 0) := by omega
  have hkn : pre.length < n := by omega
  have hrep : List.replicate (n - pre.length) (none : Option ℚ) =
      none :: List.replicate (n - (pre.length + 1)) none := by
    rw [show n - pre.length = (n - (pre.length + 1)) + 1 by omega, List.replicate_succ]
  by_cases hpre : pre = []
  · subst hpre
    have f1 : pymod (0 : Int) n = 0 :=
      pymod_of_nonneg_lt le_rfl (by exact_mod_cast Nat.pos_of_ne_zero hn0)
    have f2 : pymod (1 : Int) n = 1 :=
      pymod_of_nonneg_lt (by norm_num) (by exact_mod_cast (by omega : 1 < n))
    have f6 : ¬ ((0 : Int) = (n : Int) - 1) := by omega
    have hrep0 : List.replicate n (none : Option ℚ) =
        none :: List.replicate (n - 1) none := by
      rw [show n = (n - 1) + 1 by omega, List.replicate_succ]
      simp
    simp [Sensor.evalParams, fillState, winInit, Sensor.currentSampleFn, pyTruthyQ,
      f1, f2, f6, hn0, hrep0, getD_replicate_none]
  · have hk1 : 1 ≤ pre.length := List.length_pos.mpr hpre
    have e0 : ¬ ((pre.length : Int) - 1 = -1) := by omega
    have e1 : pymod ((pre.length : Int)) n = (pre.length : Int) :=
      pymod_of_nonneg_lt (Int.natCast_nonneg _) (by exact_mod_cast hkn)
    have e3 : (pre.map some ++ List.replicate (n - pre.length) (none : Option ℚ)).getD
        pre.length none = (none : Option ℚ) := by
      rw [getD_append_of_length _ _ _ (by simp), getD_replicate_none]
    have e4 : (pre.map some ++ List.replicate (n - pre.length) (none : Option ℚ)).set
        pre.length (some v) =
        (pre ++ [v]).map some ++ List.replicate (n - (pre.length + 1)) (none : Option ℚ) := by
      rw [set_append_of_length _ _ _ (by simp), hrep]
      simp
    have e6 : ¬ ((pre.length : Int) = (n : Int) - 1) := by omega
    have e7 : pymod ((pre.length : Int) + 1) n = ((pre.length + 1 : Nat) : Int) := by
      push_cast
      exact pymod_of_nonneg_lt (by positivity) (by exact_mod_cast h1)
    have e9 : (List.map some pre ++ some v ::
        List.replicate (n - (pre.length + 1)) (none : Option ℚ)).getD (pre.length + 1) none
        = (none : Option ℚ) := by
      rw [show some v :: List.replicate (n - (pre.length + 1)) (none : Option ℚ) =
          [some v] ++ List.replicate (n - (pre.length + 1)) none from rfl,
        ← List.append_assoc]
      rw [getD_append_of_length _ _ _ (by simp), getD_replicate_none]
    simp only [List.getD_eq_getElem?_getD] at e3 e9
    simp [Sensor.evalParams, fillState, winInit, Sensor.currentSampleFn, pyTruthyQ,
      e0, e1, e3, e4, e6, e7, e9, hn0]

def fullState (n : Nat) (sa smm hp : Bool) (vals : List ℚ) (idx : Int)
    (avg mn mx : Option ℚ) : Sensor :=
  { winInit n sa smm hp with
      sampleBuffer := vals.map some, currentBufferIndex := idx,
      currentAverage := avg, minSample := mn, maxSample := mx }

def avgOf (hp : Bool) (l : List ℚ) (n : Nat) : ℚ :=
  if hp then l.sum / n else pyFloorDiv l.sum n

theorem naiveMin_exists (l : List ℚ) (h : l ≠ []) : ∃ m, naiveMin l = some m := by
  cases l with
  | nil => exact absurd rfl h
  | cons x xs => exact ⟨_, rfl⟩

theorem naiveMax_exists (l : List ℚ) (h : l ≠ []) : ∃ m, naiveMax l = some m := by
  cases l with
  | nil => exact absurd rfl h
  | cons x xs => exact ⟨_, rfl⟩

theorem fill_step_last (n : Nat) (sa smm hp : Bool) (pre : List ℚ) (v : ℚ)
    (h1 : pre.length + 1 = n) (hmm2 : smm = true → 2 ≤ n) :
    Sensor.evalParams v (fillState n sa smm hp pre) =
      some (fullState n sa smm hp (pre ++ [v]) ((n : Int) - 1)
        (if sa then some (avgOf hp (pre ++ [v]) n) else none)
        (if smm then naiveMin (pre ++ [v]) else none)
        (if smm then naiveMax (pre ++ [v]) else none)) := by
  have hn0 : ¬ (n = 0) := by omega
  by_cases hpre : pre = []
  · subst hpre
    have hn1 : n = 1 := by simpa using h1.symm
    have hsm : smm = false := by
      cases hsm : smm
      · rfl
      · exact absurd (hmm2 hsm) (by omega)
    subst hn1
    cases sa <;>
      simp [Sensor.evalParams, fillState, winInit, fullState, avgOf,
        Sensor.currentSampleFn, pyTruthyQ, pySum, allSome, hsm,
        show pymod (0 : Int) 1 = 0 from rfl, show pymod (1 : Int) 1 = 0 from rfl]
  · have hk1 : 1 ≤ pre.length := List.length_pos.mpr hpre
    have hn2 : 2 ≤ n := by omega
    have e0 : ¬ ((pre.length : Int) - 1 = -1) := by omega
    have e1 : pymod (pre.length : Int) n = pre.length :=
      pymod_of_nonneg_lt (Int.natCast_nonneg _) (by exact_mod_cast (by omega : pre.length < n))
    have e3 : (pre.map some ++ List.replicate (n - pre.length) (none : Option ℚ)).getD
        pre.length none = (none : Option ℚ) := by
      rw [getD_append_of_length _ _ _ (by simp), getD_replicate_none]
    have e4 : (pre.map some ++ List.replicate (n - pre.length) (none : Option ℚ)).set
        pre.length (some v) = pre.map some ++ [some v] := by
      rw [set_append_of_length _ _ _ (by simp),
        show n - pre.length = 1 by omega]
      rfl
    have e6 : (pre.length : Int) = (n : Int) - 1 := by omega
    have e6t : (((pre.length : Int)) = (n : Int) - 1) = True := eq_true e6
    have e7 : pymod ((pre.length : Int) + 1) n = 0 := by
      rw [show ((pre.length : Int) + 1) = (n : Int) by omega]
      exact pymod_self (by exact_mod_cast Nat.pos_of_ne_zero hn0)
    have hmapv : List.map some pre ++ [some v] = (pre ++ [v]).map some := by simp
    have eS : pySum (List.map some pre ++ [some v]) = some ((pre ++ [v]).sum) := by
      rw [hmapv]; exact pySum_map_some _
    have eO : (List.map some pre ++ [some v]).getD 0 none =
        some ((pre ++ [v]).getD 0 0) := by
      rw [hmapv]; exact getD_map_some _ 0 (by simp)
    have eMn : pyMinQ (List.map some pre ++ [some v]) = naiveMin (pre ++ [v]) := by
      rw [hmapv]; exact pyMinQ_map_some _ (by simp; omega)
    have eMx : pyMaxQ (List.map some pre ++ [some v]) = naiveMax (pre ++ [v]) := by
      rw [hmapv]; exact pyMaxQ_map_some _ (by simp; omega)
    obtain ⟨mn, hmn⟩ := naiveMin_exists (pre ++ [v]) (by simp)
    obtain ⟨mx, hmx⟩ := naiveMax_exists (pre ++ [v]) (by simp)
    have hpos : 0 < pre.length := hk1
    simp only [List.getD_eq_getElem?_getD] at e3 eO
    rw [show ((n : Int) - 1) = (pre.length : Int) from e6.symm]
    cases sa <;> cases smm <;>
      simp [Sensor.evalParams, fillState, winInit, fullState, avgOf,
        Sensor.currentSampleFn, pyTruthyQ, e0, e1, e3, e4, e6t, e7, eS, eO,
        eMn, eMx, hmn, hmx, hn0, hpos, List.getElem_append_left, List.getElem_map]

theorem pushSeq_append (l1 l2 : List ℚ) (s : Sensor) :
    Sensor.pushSeq (l1 ++ l2) s =
      (Sensor.pushSeq l1 s).bind (fun s' => Sensor.pushSeq l2 s') := by
  induction l1 generalizing s with
  | nil => simp [Sensor.pushSeq]
  | cons v vs ih =>
    simp only [List.cons_append, Sensor.pushSeq]
    cases Sensor.evalParams v s with
    | none => simp
    | some s' => simp [ih s']

theorem pushSeq_cons (v : ℚ) (vs : List ℚ) (s s' : Sensor)
    (h : Sensor.evalParams v s = some s') :
    Sensor.pushSeq (v :: vs) s = Sensor.pushSeq vs s' := by
  simp [Sensor.pushSeq, h]

theorem fillState_nil (n : Nat) (sa smm hp : Bool) :
    fillState n sa smm hp [] = winInit n sa smm hp := by
  simp [fillState, winInit]

theorem fill_run (n : Nat) (sa smm hp : Bool) :
    ∀ (rest pre : List ℚ), rest ≠ [] → pre.length + rest.length = n →
      (smm = true → 2 ≤ n) →
      Sensor.pushSeq rest (fillState n sa smm hp pre) =
        some (fullState n sa smm hp (pre ++ rest) ((n : Int) - 1)
          (if sa then some (avgOf hp (pre ++ rest) n) else none)
          (if smm then naiveMin (pre ++ rest) else none)
          (if smm then naiveMax (pre ++ rest) else none))
  | [], _, hne, _, _ => absurd rfl hne
  | [v], pre, _, hlen, hmm2 => by
    have h1 : pre.length + 1 = n := by simpa using hlen
    simp [Sensor.pushSeq, fill_step_last n sa smm hp pre v h1 hmm2]
  | v :: w :: rest, pre, _, hlen, hmm2 => by
    have h1 : pre.length + 1 < n := by
      simp only [List.length_cons] at hlen
      omega
    have hrec := fill_run n sa smm hp (w :: rest) (pre ++ [v]) (by simp)
      (by simp only [List.length_append, List.length_cons, List.length_nil] at hlen ⊢; omega)
      hmm2
    rw [pushSeq_cons v (w :: rest) _ _ (fill_step_mid n sa smm hp pre v h1), hrec]
    simp

theorem fill_run_underfull (n : Nat) (sa smm hp : Bool) (pre : List ℚ)
    (hlt : pre.length < n) :
    Sensor.pushSeq pre (winInit n sa smm hp) = some (fillState n sa smm hp pre) := by
  induction pre using List.reverseRecOn with
  | nil => simp [Sensor.pushSeq, fillState_nil]
  | append_singleton xs x ih =>
    have hxs : xs.length < n := by simp at hlt; omega
    rw [pushSeq_append, ih hxs]
    have h1 : xs.length + 1 < n := by simp at hlt; omega
    simp [Sensor.pushSeq, fill_step_mid n sa smm hp xs x h1]

set_option maxRecDepth 4096 in
theorem avg_preserve_hp (n : Nat) (vals : List ℚ) (idx : Int) (v : ℚ)
    (hlen : vals.length = n) (hidx0 : 0 ≤ idx) (hidxlt : idx < n)
    (hnz : vals.sum / (n : ℚ) ≠ 0) :
    Sensor.evalParams v
        (fullState n true false true vals idx (some (vals.sum / n)) none none) =
      some (fullState n true false true (vals.set (pymod (idx + 1) n).toNat v)
        (pymod (idx + 1) n)
        (some ((vals.set (pymod (idx + 1) n).toNat v).sum / n)) none none) := by
  have hn1 : 1 ≤ n := by omega
  have hn0 : ¬ (n = 0) := by omega
  have hnQ : ((n : ℚ)) ≠ 0 := by exact_mod_cast hn0
  have hidxne : ¬ (idx = -1) := by omega
  have hm0 : 0 ≤ pymod (idx + 1) n := pymod_nonneg (by exact_mod_cast Nat.pos_of_ne_zero hn0)
  have hmlt : pymod (idx + 1) n < n := pymod_lt (by exact_mod_cast Nat.pos_of_ne_zero hn0)
  have hmne : ¬ (pymod (idx + 1) n = -1) := by omega
  have hjlt : (pymod (idx + 1) n).toNat < vals.length := by
    rw [hlen]; omega
  obtain ⟨r, hr⟩ : ∃ r, vals[(pymod (idx + 1) (n : Int)).toNat]? = some r :=
    ⟨_, List.getElem?_eq_getElem hjlt⟩
  have hsum : (vals.set (pymod (idx + 1) n).toNat v).sum =
      vals.sum - vals.getD (pymod (idx + 1) n).toNat 0 + v :=
    sum_set_eq _ _ _ hjlt
  have htruthy : pyTruthyQ (some (vals.sum / (n : ℚ))) = true := by
    simp [pyTruthyQ, hnz]
  have hs0 : ¬ (vals.sum = 0) := by
    intro h
    exact hnz (by rw [h]; simp)
  have harith : ((vals.sum + v - r) : ℚ) / n = (vals.sum - r + v) / n := by
    ring_nf
  simp only [List.getD_eq_getElem?_getD] at hsum
  simp [Sensor.evalParams, fullState, winInit, Sensor.currentSampleFn, pyTruthyQ,
    hn0, hidxne, hmne, hr, hsum, htruthy, harith, hs0]

set_option maxRecDepth 4096 in
theorem avg_recurrence_floor (n : Nat) (vals : List ℚ) (idx : Int) (v a : ℚ)
    (hlen : vals.length = n) (hidx0 : 0 ≤ idx) (hidxlt : idx < n)
    (ha : a ≠ 0) :
    Sensor.evalParams v
        (fullState n true false false vals idx (some a) none none) =
      some (fullState n true false false (vals.set (pymod (idx + 1) n).toNat v)
        (pymod (idx + 1) n)
        (some (pyFloorDiv (a * n + v - vals.getD (pymod (idx + 1) n).toNat 0) n))
        none none) := by
  have hn0 : ¬ (n = 0) := by omega
  have hidxne : ¬ (idx = -1) := by omega
  have hm0 : 0 ≤ pymod (idx + 1) n := pymod_nonneg (by exact_mod_cast Nat.pos_of_ne_zero hn0)
  have hmne : ¬ (pymod (idx + 1) n = -1) := by omega
  have hjlt : (pymod (idx + 1) n).toNat < vals.length := by
    have := pymod_lt (b := (n : Int)) (by exact_mod_cast Nat.pos_of_ne_zero hn0) (a := idx + 1)
    rw [hlen]; omega
  obtain ⟨r, hr⟩ : ∃ r, vals[(pymod (idx + 1) (n : Int)).toNat]? = some r :=
    ⟨_, List.getElem?_eq_getElem hjlt⟩
  have htruthy : pyTruthyQ (some a) = true := by simp [pyTruthyQ, ha]
  simp [Sensor.evalParams, fullState, winInit, Sensor.currentSampleFn, pyTruthyQ,
    hn0, hidxne, hmne, hr, htruthy, ha]

theorem naiveMin_set_lower (vals : List ℚ) (j : Nat) (v mn : ℚ) (hj : j < vals.length)
    (hmn : naiveMin vals = some mn) (hv : v ≤ mn) :
    naiveMin (vals.set j v) = some v := by
  apply naiveMin_eq (mem_set_self _ _ _ hj)
  intro x hx
  rcases mem_of_mem_set _ _ _ _ hx with h | h
  · exact le_trans hv (naiveMin_le hmn x h)
  · exact le_of_eq h.symm

theorem naiveMin_set_keep (vals : List ℚ) (j : Nat) (v mn : ℚ)
    (hmn : naiveMin vals = some mn) (hne : vals.getD j 0 ≠ mn) (hv : mn ≤ v) :
    naiveMin (vals.set j v) = some mn := by
  apply naiveMin_eq (mem_set_of_getD_ne _ _ _ _ (naiveMin_mem hmn) hne)
  intro x hx
  rcases mem_of_mem_set _ _ _ _ hx with h | h
  · exact naiveMin_le hmn x h
  · exact h ▸ hv

theorem naiveMax_set_upper (vals : List ℚ) (j : Nat) (v mx : ℚ) (hj : j < vals.length)
    (hmx : naiveMax vals = some mx) (hv : mx ≤ v) :
    naiveMax (vals.set j v) = some v := by
  apply naiveMax_eq (mem_set_self _ _ _ hj)
  intro x hx
  rcases mem_of_mem_set _ _ _ _ hx with h | h
  · exact le_trans (naiveMax_ge hmx x h) hv
  · exact le_of_eq h

theorem naiveMax_set_keep (vals : List ℚ) (j : Nat) (v mx : ℚ)
    (hmx : naiveMax vals = some mx) (hne : vals.getD j 0 ≠ mx) (hv : v ≤ mx) :
    naiveMax (vals.set j v) = some mx := by
  apply naiveMax_eq (mem_set_of_getD_ne _ _ _ _ (naiveMax_mem hmx) hne)
  intro x hx
  rcases mem_of_mem_set _ _ _ _ hx with h | h
  · exact naiveMax_ge hmx x h
  · exact h ▸ hv

set_option maxRecDepth 4096 in
set_option maxHeartbeats 1600000 in
theorem minmax_preserve (n : Nat) (hp : Bool) (vals : List ℚ) (idx : Int) (v : ℚ)
    (avg : Option ℚ) (mn mx : ℚ)
    (hlen : vals.length = n) (h2 : 2 ≤ n) (hidx0 : 0 ≤ idx) (hidxlt : idx < n)
    (hmn : naiveMin vals = some mn) (hmx : naiveMax vals = some mx) :
    Sensor.evalParams v (fullState n false true hp vals idx avg (some mn) (some mx)) =
      some (fullState n false true hp (vals.set (pymod (idx + 1) n).toNat v)
        (pymod (idx + 1) n) avg
        (naiveMin (vals.set (pymod (idx + 1) n).toNat v))
        (naiveMax (vals.set (pymod (idx + 1) n).toNat v))) := by
  have hn0 : ¬ (n = 0) := by omega
  have hnpos : (0 : Int) < n := by exact_mod_cast Nat.pos_of_ne_zero hn0
  have hidxne : ¬ (idx = -1) := by omega
  have hm0 : 0 ≤ pymod (idx + 1) n := pymod_nonneg hnpos
  have hmlt : pymod (idx + 1) n < n := pymod_lt hnpos
  have hmne : ¬ (pymod (idx + 1) n = -1) := by omega
  have hjlt : (pymod (idx + 1) n).toNat < vals.length := by rw [hlen]; omega
  obtain ⟨r, hr⟩ : ∃ r, vals[(pymod (idx + 1) (n : Int)).toNat]? = some r :=
    ⟨_, List.getElem?_eq_getElem hjlt⟩
  have hgd : vals.getD (pymod (idx + 1) (n : Int)).toNat 0 = r := by
    rw [List.getD_eq_getElem?_getD, hr]
    rfl
  have hsetlen : (vals.set (pymod (idx + 1) (n : Int)).toNat v).length = n := by
    rw [List.length_set, hlen]
  have hsetne : vals.set (pymod (idx + 1) (n : Int)).toNat v ≠ [] := by
    intro h
    rw [← List.length_eq_zero] at h
    omega
  have holt : (pymod (pymod (idx + 1) (n : Int) + 1) n).toNat <
      (vals.set (pymod (idx + 1) (n : Int)).toNat v).length := by
    have h1 := pymod_nonneg (a := pymod (idx + 1) (n : Int) + 1) hnpos
    have h2 := pymod_lt (a := pymod (idx + 1) (n : Int) + 1) hnpos
    rw [hsetlen]
    omega
  obtain ⟨w, hw⟩ : ∃ w, (vals.set (pymod (idx + 1) (n : Int)).toNat v)[
      (pymod (pymod (idx + 1) (n : Int) + 1) n).toNat]? = some w :=
    ⟨_, List.getElem?_eq_getElem holt⟩
  have holdq : ((List.map some vals).set (pymod (idx + 1) (n : Int)).toNat (some v))[
      (pymod (pymod (idx + 1) (n : Int) + 1) n).toNat]? = some (some w) := by
    rw [map_some_set, List.getElem?_map, hw]
    rfl
  have hpyn : pyMinQ ((List.map some vals).set (pymod (idx + 1) (n : Int)).toNat (some v)) =
      naiveMin (vals.set (pymod (idx + 1) (n : Int)).toNat v) := by
    rw [map_some_set]
    exact pyMinQ_map_some _ (by rw [hsetlen]; omega)
  have hpyx : pyMaxQ ((List.map some vals).set (pymod (idx + 1) (n : Int)).toNat (some v)) =
      naiveMax ((vals.set (pymod (idx + 1) (n : Int)).toNat v)) := by
    rw [map_some_set]
    exact pyMaxQ_map_some _ (by rw [hsetlen]; omega)
  obtain ⟨m', hm'⟩ := naiveMin_exists (vals.set (pymod (idx + 1) (n : Int)).toNat v) hsetne
  obtain ⟨x', hx'⟩ := naiveMax_exists (vals.set (pymod (idx + 1) (n : Int)).toNat v) hsetne
  have hm1 : ¬ (mn < v) → m' = v := fun h => by
    have hs := naiveMin_set_lower vals ((pymod (idx + 1) (n : Int)).toNat) v mn hjlt hmn
      (not_lt.mp h)
    rw [hm'] at hs
    exact Option.some_inj.mp hs
  have hm2 : v < mn → m' = v := fun h => by
    have hs := naiveMin_set_lower vals ((pymod (idx + 1) (n : Int)).toNat) v mn hjlt hmn
      (le_of_lt h)
    rw [hm'] at hs
    exact Option.some_inj.mp hs
  have hm3 : ¬ (r = mn) → ¬ (v < mn) → m' = mn := fun hne h => by
    have hs := naiveMin_set_keep vals ((pymod (idx + 1) (n : Int)).toNat) v mn hmn
      (hgd ▸ hne) (not_lt.mp h)
    rw [hm'] at hs
    exact Option.some_inj.mp hs
  have hx1 : ¬ (v < mx) → x' = v := fun h => by
    have hs := naiveMax_set_upper vals ((pymod (idx + 1) (n : Int)).toNat) v mx hjlt hmx
      (not_lt.mp h)
    rw [hx'] at hs
    exact Option.some_inj.mp hs
  have hx2 : mx < v → x' = v := fun h => by
    have hs := naiveMax_set_upper vals ((pymod (idx + 1) (n : Int)).toNat) v mx hjlt hmx
      (le_of_lt h)
    rw [hx'] at hs
    exact Option.some_inj.mp hs
  have hx3 : ¬ (r = mx) → ¬ (mx < v) → x' = mx := fun hne h => by
    have hs := naiveMax_set_keep vals ((pymod (idx + 1) (n : Int)).toNat) v mx hmx
      (hgd ▸ hne) (not_lt.mp h)
    rw [hx'] at hs
    exact Option.some_inj.mp hs
  simp [Sensor.evalParams, fullState, winInit, Sensor.currentSampleFn, pyTruthyQ,
    hn0, hidxne, hmne, hr, hgd, holdq, hpyn, hpyx, hm', hx']
  split_ifs <;> simp_all

theorem ratFloor_eq_intFloor (q : ℚ) : Rat.floor q = ⌊q⌋ := rfl

/-- Claim C1 (as stated) is false: in integer (non-high-precision) mode the
incremental update applies floor division to a quantity built from the
already-floored cached average, so the cache drifts from the floor of the true
mean.  Capacity 2, samples 1, 2, 2: the buffer holds [2, 2] whose mean floors
to 2, but the cached average is 1. -/
theorem c1_counterexample :
    (Sensor.pushSeq [1, 2, 2] (winInit 2 true false false)).map
      (fun s => (s.currentAverage, s.sampleBuffer)) =
        some (some 1, [some 2, some 2]) ∧
    pyFloorDiv ((2 : ℚ) + 2) 2 = 2 ∧
    (1 : ℚ) ≠ 2 := by
  refine ⟨?_, ?_, by norm_num⟩
  · have h1 := fill_run 2 true false false [1, 2] [] (by simp) (by simp) (by simp)
    rw [fillState_nil] at h1
    have havg : avgOf false [1, 2] 2 = 1 := by
      simp only [avgOf, pyFloorDiv, ratFloor_eq_intFloor, List.sum_cons,
        List.sum_nil, if_neg Bool.false_ne_true]
      norm_num
    simp only [List.nil_append, havg, if_true, if_false, Bool.false_eq_true] at h1
    have h2 := avg_recurrence_floor 2 [1, 2] 1 2 1 rfl (by norm_num) (by norm_num)
      (by norm_num)
    have hpm : pymod ((1 : Int) + 1) ((2 : Nat) : Int) = 0 := by decide
    have hfd : pyFloorDiv ((1 : ℚ) * ((2 : Nat) : ℚ) + 2 - ([1, 2] : List ℚ).getD
        ((0 : Int)).toNat 0) ((2 : Nat) : ℚ) = 1 := by
      simp only [pyFloorDiv, ratFloor_eq_intFloor]
      norm_num
    rw [hpm, hfd] at h2
    rw [show ([1, 2, 2] : List ℚ) = [1, 2] ++ [2] from rfl, pushSeq_append, h1]
    simp only [Option.some_bind]
    rw [show ((2 : Nat) : Int) - 1 = (1 : Int) by norm_num]
    rw [pushSeq_cons 2 [] _ _ h2]
    simp [Sensor.pushSeq, fullState, winInit]
  · simp only [pyFloorDiv, ratFloor_eq_intFloor]
    norm_num

/-- Claim C1 (amended): for a window of capacity `n` with `storeAverage` set,
after the `n`-th push the cached average equals the exact mean in
high-precision mode and the exact integer floor of the mean otherwise (full
summation).  On every later push the code applies the incremental update only
when the cached average is truthy (nonzero): in high-precision mode
`average' = (average·n + value − evicted)/n` preserves equality with the
exact mean of the buffered samples (provided the mean never becomes 0, which
would freeze the update); in integer mode the cache follows the floored
recurrence `average' = ⌊(average·n + value − evicted)/n⌋, which is not in
general the floor of the buffer's true mean. -/
theorem c1_average (hp : Bool) (n : Nat) :
    (∀ samples : List ℚ, samples ≠ [] → samples.length = n →
      Sensor.pushSeq samples (winInit n true false hp) =
        some (fullState n true false hp samples ((n : Int) - 1)
          (some (avgOf hp samples n)) none none)) ∧
    (∀ (vals : List ℚ) (idx : Int) (v : ℚ), vals.length = n → 0 ≤ idx →
      idx < n → vals.sum / (n : ℚ) ≠ 0 →
      Sensor.evalParams v
          (fullState n true false true vals idx (some (vals.sum / n)) none none) =
        some (fullState n true false true (vals.set (pymod (idx + 1) n).toNat v)
          (pymod (idx + 1) n)
          (some ((vals.set (pymod (idx + 1) n).toNat v).sum / n)) none none)) ∧
    (∀ (vals : List ℚ) (idx : Int) (v a : ℚ), vals.length = n → 0 ≤ idx →
      idx < n → a ≠ 0 →
      Sensor.evalParams v
          (fullState n true false false vals idx (some a) none none) =
        some (fullState n true false false (vals.set (pymod (idx + 1) n).toNat v)
          (pymod (idx + 1) n)
          (some (pyFloorDiv (a * n + v - vals.getD (pymod (idx + 1) n).toNat 0) n))
          none none)) := by
  refine ⟨?_, ?_, ?_⟩
  · intro samples hne hlen
    have h := fill_run n true false hp samples [] hne (by simpa using hlen)
      (by simp)
    rw [fillState_nil] at h
    simpa using h
  · intro vals idx v hlen hidx0 hidxlt hnz
    exact avg_preserve_hp n vals idx v hlen hidx0 hidxlt hnz
  · intro vals idx v a hlen hidx0 hidxlt ha
    exact avg_recurrence_floor n vals idx v a hlen hidx0 hidxlt ha

/-- Witness for C1's three clauses at concrete inputs. -/
theorem c1_average_witness :
    Sensor.pushSeq [3, 5] (winInit 2 true false true) =
      some (fullState 2 true false true [3, 5] ((2 : Int) - 1)
        (some (avgOf true [3, 5] 2)) none none) ∧
    Sensor.evalParams 7 (fullState 2 true false true [3, 5] 1
        (some (([3, 5] : List ℚ).sum / 2)) none none) =
      some (fullState 2 true false true (([3, 5] : List ℚ).set
          (pymod ((1 : Int) + 1) 2).toNat 7) (pymod ((1 : Int) + 1) 2)
        (some ((([3, 5] : List ℚ).set (pymod ((1 : Int) + 1) 2).toNat 7).sum / 2))
        none none) ∧
    Sensor.evalParams 7 (fullState 2 true false false [3, 5] 1 (some 4) none none) =
      some (fullState 2 true false false (([3, 5] : List ℚ).set
          (pymod ((1 : Int) + 1) 2).toNat 7) (pymod ((1 : Int) + 1) 2)
        (some (pyFloorDiv ((4 : ℚ) * 2 + 7 -
          ([3, 5] : List ℚ).getD (pymod ((1 : Int) + 1) 2).toNat 0) 2)) none none) :=
  ⟨(c1_average true 2).1 [3, 5] (by decide) rfl,
   (c1_average true 2).2.1 [3, 5] 1 7 rfl (by decide) (by decide)
     (by norm_num [List.sum_cons, List.sum_nil]),
   (c1_average false 2).2.2 [3, 5] 1 7 4 rfl (by decide) (by decide) (by decide)⟩

/-- Claim C2 (as stated) is false before the buffer has filled for the first
time: the min/max block of `_evalParams` runs only once the slot after the
write cursor is occupied, so after a single push into a window of capacity 2
the cached extrema are still `None` while the full-rescan oracle over the
valid entries says 5. -/
theorem c2_counterexample :
    (Sensor.pushSeq [5] (winInit 2 false true false)).map
      (fun s => (s.minSample, s.maxSample)) = some (none, none) ∧
    naiveMin [(5 : ℚ)] = some 5 ∧
    naiveMax [(5 : ℚ)] = some 5 ∧
    (none : Option ℚ) ≠ some 5 := by
  exact ⟨rfl, rfl, rfl, by decide⟩

/-- Claim C2 (amended): with min/max tracking enabled on a window of capacity
`n ≥ 2`, the cached `minSample`/`maxSample` stay absent (`None`) on every push
before the buffer first fills; from the `n`-th push on they equal the naive
full-rescan oracle over the buffered samples, and every further push preserves
that agreement through the eviction-aware update (incoming value adopted by
dominance, full rescan only when the evicted value equalled the cached
extremum and the incoming value does not dominate it). -/
theorem c2_minmax (hp : Bool) (n : Nat) :
    (∀ pre : List ℚ, pre.length < n →
      Sensor.pushSeq pre (winInit n false true hp) =
        some (fillState n false true hp pre) ∧
      (fillState n false true hp pre).minSample = none ∧
      (fillState n false true hp pre).maxSample = none) ∧
    (∀ samples : List ℚ, samples ≠ [] → samples.length = n → 2 ≤ n →
      Sensor.pushSeq samples (winInit n false true hp) =
        some (fullState n false true hp samples ((n : Int) - 1) none
          (naiveMin samples) (naiveMax samples))) ∧
    (∀ (vals : List ℚ) (idx : Int) (v : ℚ) (avg : Option ℚ) (mn mx : ℚ),
      vals.length = n → 2 ≤ n → 0 ≤ idx → idx < n →
      naiveMin vals = some mn → naiveMax vals = some mx →
      Sensor.evalParams v (fullState n false true hp vals idx avg
          (some mn) (some mx)) =
        some (fullState n false true hp (vals.set (pymod (idx + 1) n).toNat v)
          (pymod (idx + 1) n) avg
          (naiveMin (vals.set (pymod (idx + 1) n).toNat v))
          (naiveMax (vals.set (pymod (idx + 1) n).toNat v)))) := by
  refine ⟨?_, ?_, ?_⟩
  · intro pre hlt
    exact ⟨fill_run_underfull n false true hp pre hlt, rfl, rfl⟩
  · intro samples hne hlen h2
    have h := fill_run n false true hp samples [] hne (by simpa using hlen)
      (fun _ => h2)
    rw [fillState_nil] at h
    simpa using h
  · intro vals idx v avg mn mx hlen h2 hidx0 hidxlt hmn hmx
    exact minmax_preserve n hp vals idx v avg mn mx hlen h2 hidx0 hidxlt hmn hmx

/-- Witness for C2's three clauses at concrete inputs. -/
theorem c2_minmax_witness :
    Sensor.pushSeq [4] (winInit 2 false true false) =
      some (fillState 2 false true false [4]) ∧
    Sensor.pushSeq [4, 7] (winInit 2 false true false) =
      some (fullState 2 false true false [4, 7] ((2 : Int) - 1) none
        (naiveMin [4, 7]) (naiveMax [4, 7])) ∧
    Sensor.evalParams 9 (fullState 2 false true false [4, 7] 1 none
        (some 4) (some 7)) =
      some (fullState 2 false true false (([4, 7] : List ℚ).set
          (pymod ((1 : Int) + 1) 2).toNat 9) (pymod ((1 : Int) + 1) 2) none
        (naiveMin (([4, 7] : List ℚ).set (pymod ((1 : Int) + 1) 2).toNat 9))
        (naiveMax (([4, 7] : List ℚ).set (pymod ((1 : Int) + 1) 2).toNat 9))) :=
  ⟨((c2_minmax false 2).1 [4] (by decide)).1,
   (c2_minmax false 2).2.1 [4, 7] (by decide) rfl (by decide),
   (c2_minmax false 2).2.2 [4, 7] 1 9 none 4 7 rfl (by decide) (by decide)
     (by decide) rfl rfl⟩
